import Mathlib

/-!
# Form-submission intake service: handlers of `main.go`

A shallow embedding of the two HTTP handlers `handleSubmit` and `handleExport`,
of the root handler and of the route table registered in `main`, together with
the parts of their collaborators that decide what a caller observes:

* the `submissions` table (schema of `main`, insert and select statements),
* `http.ResponseWriter` and `http.Error`,
* `bufio.Writer` and `csv.Writer`, through which the export is written.

Conventions of the model:

* Go `string` values are Lean `String`s (valid UTF-8 text); what reaches the
  response is a list of bytes.
* Everything the handlers cannot control is an input (`Env`): the clock of the
  store, the failures of the store calls, the number of bytes the connection
  still accepts, and the rendering of a Go map by `encoding/json`.
* A handler returns an `Outcome`: the response, the table, the log lines, and
  two traces, the statements sent to the database and the records accepted by
  `cw.Write`.
* The CSV writer buffers 4096 bytes (`bufio.NewWriter`); nothing reaches the
  response before the buffer overflows or `cw.Flush()` is called.
-/

namespace Virtudocks

/-! ## Bytes -/

/-- Raw bytes, as written to a response. -/
abbrev Bytes := List UInt8

/-- The bytes of a Go string holding the text `s`. -/
def utf8 (s : String) : Bytes := s.data.flatMap String.utf8EncodeChar

/-! ## The submissions table -/

/-- One row of the table `submissions` created in `main`. -/
structure Submission where
  id : Int
  first_name : String
  last_name : String
  email : String
  exported : Int
  created_at : String
deriving DecidableEq, Repr

/-- The table: its rows in rowid order, and the largest rowid ever handed out
(the `sqlite_sequence` entry kept for an `AUTOINCREMENT` key). -/
structure Store where
  rows : List Submission
  seq : Int
deriving DecidableEq, Repr

/-- The table right after `CREATE TABLE IF NOT EXISTS` on a fresh database. -/
def Store.empty : Store := { rows := [], seq := 0 }

/-- Largest value of a 64-bit rowid. -/
def maxRowid : Int := 9223372036854775807

/-- Rowid an `AUTOINCREMENT` key gives to the next row: one more than the
largest rowid that is or ever was in the table. -/
def Store.nextId (s : Store) : Int :=
  max s.seq (s.rows.foldl (fun m r => max m r.id) 0) + 1

/-- Statements a handler sends to the database. -/
inductive DbCall where
  | exec (first_name last_name email : String)
  | query (filter : Option Int)
deriving DecidableEq, Repr

/-! ## What a handler cannot control -/

/-- Values found in the map that `handleSubmit` encodes. -/
inductive JsonValue where
  | int (n : Int)
  | str (s : String)
deriving DecidableEq, Repr

/-- Inputs of one request that come from outside the handler. -/
structure Env where
  /-- value of `CURRENT_TIMESTAMP` if a row is inserted -/
  now : String
  /-- error of `db.Exec`, if the insert fails -/
  insertErr : Option String
  /-- error of `db.Query`, if the select fails -/
  queryErr : Option String
  /-- index of the row at which `rows.Next()` gives up, if it does -/
  nextErr : Option Nat
  /-- error of `rows.Scan` on the row with the given index, if it fails -/
  scanErr : Nat → Option String
  /-- number of body bytes the connection still accepts (`none`: no limit) -/
  room : Option Nat
  /-- error returned by a write the connection does not accept in full -/
  connErr : String
  /-- rendering of a `map[string]interface{}` by `encoding/json` -/
  jsonEncode : List (String × JsonValue) → Bytes

/-- `INSERT INTO submissions (first_name, last_name, email, exported)
VALUES (?, ?, ?, 0)`: the new row and its rowid, or the error. -/
def Store.insert (s : Store) (env : Env) (fn ln em : String) :
    Except String (Store × Int) :=
  match env.insertErr with
  | some e => .error e
  | none =>
    if s.nextId > maxRowid then .error "database or disk is full"
    else
      .ok ({ rows := s.rows ++ [⟨s.nextId, fn, ln, em, 0, env.now⟩], seq := s.nextId },
           s.nextId)

/-- `SELECT id, first_name, last_name, email, exported, created_at FROM submissions`,
with ` WHERE exported = ?` when a value is bound. -/
def Store.select (s : Store) (filter : Option Int) : List Submission :=
  match filter with
  | none => s.rows
  | some v => s.rows.filter (fun r => r.exported = v)

/-! ## Requests -/

/-- Go struct `submissionInput`. -/
structure submissionInput where
  FirstName : String
  LastName : String
  Email : String
deriving DecidableEq, Repr

/-- An incoming request: method, path, the parsed query string in order, and
the outcome of decoding the body into a `submissionInput` (`none`: the decoder
returned an error). -/
structure Request where
  method : String
  path : String
  query : List (String × String)
  body : Option submissionInput

/-- `url.Values.Get`: the first value of the key, the empty string if absent. -/
def Values.Get (q : List (String × String)) (key : String) : String :=
  match q.find? (fun p => p.1 = key) with
  | some p => p.2
  | none => ""

/-! ## `http.ResponseWriter` -/

/-- State of a response. `status` and `sent` are the status line and the header
fields once they have gone out; `header` is the map `w.Header()`. -/
structure ResponseWriter where
  header : List (String × String)
  status : Option Nat
  sent : List (String × String)
  body : Bytes
  room : Option Nat
  connErr : String
deriving DecidableEq, Repr

/-- Response of a request that has not been answered yet. -/
def ResponseWriter.new (env : Env) : ResponseWriter :=
  { header := [], status := none, sent := [], body := [], room := env.room,
    connErr := env.connErr }

/-- `w.Header().Set(k, v)`. Keys are kept as the source writes them. -/
def ResponseWriter.Set (w : ResponseWriter) (k v : String) : ResponseWriter :=
  { w with header := w.header.filter (fun p => p.1 ≠ k) ++ [(k, v)] }

/-- `w.Header().Del(k)`. -/
def ResponseWriter.Del (w : ResponseWriter) (k : String) : ResponseWriter :=
  { w with header := w.header.filter (fun p => p.1 ≠ k) }

/-- `w.WriteHeader(code)`: sends the status line and the header fields; a second
call is ignored. -/
def ResponseWriter.WriteHeader (w : ResponseWriter) (code : Nat) : ResponseWriter :=
  match w.status with
  | some _ => w
  | none => { w with status := some code, sent := w.header }

/-- `w.Write(p)`: sends status 200 first if no status went out, then hands `p`
to the connection, which takes it whole or takes what it still has room for and
reports an error. Returns the number of bytes taken and the error. -/
def ResponseWriter.Write (w : ResponseWriter) (p : Bytes) :
    ResponseWriter × Nat × Option String :=
  let w1 := w.WriteHeader 200
  match w1.room with
  | none => ({ w1 with body := w1.body ++ p }, p.length, none)
  | some r =>
    if p.length ≤ r then
      ({ w1 with body := w1.body ++ p, room := some (r - p.length) }, p.length, none)
    else
      ({ w1 with body := w1.body ++ p.take r, room := some 0 }, r, some w1.connErr)

/-- `http.Error(w, msg, code)`. -/
def httpError (w : ResponseWriter) (msg : String) (code : Nat) : ResponseWriter :=
  let w1 := w.Del "Content-Length"
  let w2 := w1.Set "Content-Type" "text/plain; charset=utf-8"
  let w3 := w2.Set "X-Content-Type-Options" "nosniff"
  let w4 := w3.WriteHeader code
  (w4.Write (utf8 (msg ++ "\n"))).1

/-! ## `bufio.Writer` -/

/-- Size of the buffer of `bufio.NewWriter`. -/
def defaultBufSize : Nat := 4096

/-- A `bufio.Writer` on top of a response: the bytes not yet passed on, and the
error of the first failed write, which it keeps. -/
structure BufWriter where
  buf : Bytes
  err : Option String
deriving DecidableEq, Repr

/-- `bufio.NewWriter(w)`. -/
def BufWriter.new : BufWriter := { buf := [], err := none }

/-- `b.Available()`. -/
def BufWriter.Available (b : BufWriter) : Nat := defaultBufSize - b.buf.length

/-- `b.Flush()`. -/
def BufWriter.Flush (b : BufWriter) (w : ResponseWriter) : BufWriter × ResponseWriter :=
  match b.err with
  | some _ => (b, w)
  | none =>
    if b.buf.length = 0 then (b, w)
    else
      match w.Write b.buf with
      | (w1, n, some e) => ({ buf := b.buf.drop n, err := some e }, w1)
      | (w1, _, none) => ({ buf := [], err := none }, w1)

/-- `b.WriteByte(c)`. A full buffer is flushed first; the flush either empties
it or leaves an error, so the loop of the library runs at most once. -/
def BufWriter.WriteByte (b : BufWriter) (w : ResponseWriter) (c : UInt8) :
    BufWriter × ResponseWriter × Option String :=
  let r := if b.Available ≤ 0 ∧ b.err = none then b.Flush w else (b, w)
  match r.1.err with
  | some e => (r.1, r.2, some e)
  | none => ({ r.1 with buf := r.1.buf ++ [c] }, r.2, none)

/-- The loop of `b.WriteString(s)`: while `s` does not fit and no error is
kept, either pass `s` straight to the response (empty buffer) or fill the
buffer and flush it. Returns what is left of `s`. -/
def BufWriter.writeStringLoop :
    Nat → Bytes → BufWriter → ResponseWriter → Bytes × BufWriter × ResponseWriter
  | 0, s, b, w => (s, b, w)
  | fuel + 1, s, b, w =>
    if s.length > b.Available ∧ b.err = none then
      if b.buf.length = 0 then
        match w.Write s with
        | (w1, n, e) => writeStringLoop fuel (s.drop n) { b with err := e } w1
      else
        let n := min b.Available s.length
        match BufWriter.Flush { b with buf := b.buf ++ s.take n } w with
        | (b1, w1) => writeStringLoop fuel (s.drop n) b1 w1
    else (s, b, w)

/-- `b.WriteString(s)`. Two rounds of the loop are always enough (see
`writeStringLoop_done`). -/
def BufWriter.WriteString (b : BufWriter) (w : ResponseWriter) (s : Bytes) :
    BufWriter × ResponseWriter × Option String :=
  match BufWriter.writeStringLoop 2 s b w with
  | (rest, b1, w1) =>
    match b1.err with
    | some e => (b1, w1, some e)
    | none => ({ b1 with buf := b1.buf ++ rest }, w1, none)

/-! ## `csv.Writer` -/

/-- One call that `csv.Writer.Write` makes on its `bufio.Writer`. -/
inductive BufOp where
  | byte (c : UInt8)
  | str (s : Bytes)
deriving DecidableEq, Repr

/-- The bytes a call adds to the output. -/
def BufOp.bytes : BufOp → Bytes
  | .byte c => [c]
  | .str s => s

/-- Performs one call. -/
def BufOp.run (op : BufOp) (b : BufWriter) (w : ResponseWriter) :
    BufWriter × ResponseWriter × Option String :=
  match op with
  | .byte c => b.WriteByte w c
  | .str s => b.WriteString w s

/-- Performs the calls in order and stops at the first one that returns an
error. -/
def runOps : List BufOp → BufWriter → ResponseWriter →
    BufWriter × ResponseWriter × Option String
  | [], b, w => (b, w, none)
  | op :: ops, b, w =>
    match op.run b w with
    | (b1, w1, some e) => (b1, w1, some e)
    | (b1, w1, none) => runOps ops b1 w1

/-- `unicode.IsSpace`. -/
def isSpace (c : Char) : Bool :=
  let r := c.toNat
  if r ≤ 0xFF then
    r = 0x09 ∨ r = 0x0A ∨ r = 0x0B ∨ r = 0x0C ∨ r = 0x0D ∨ r = 0x20 ∨ r = 0x85 ∨ r = 0xA0
  else
    r = 0x1680 ∨ (0x2000 ≤ r ∧ r ≤ 0x200A) ∨ r = 0x2028 ∨ r = 0x2029 ∨ r = 0x202F ∨
      r = 0x205F ∨ r = 0x3000

/-- `(*csv.Writer).fieldNeedsQuotes` for the comma delimiter. -/
def fieldNeedsQuotes (field : String) : Bool :=
  if field = "" then false
  else if field = "\\." then true
  else if field.data.any (fun c => c = '\n' ∨ c = '\r' ∨ c = '"' ∨ c = ',') then true
  else
    match field.data with
    | [] => false
    | r1 :: _ => isSpace r1

/-- Calls for the inside of a quoted field: each run of ordinary characters
(`run`, in reverse, is the one being collected) is written with one
`WriteString`, a quote is doubled, a carriage return or a line feed is
written as it is. -/
def quotedOps : List Char → List Char → List BufOp
  | [], run => if run = [] then [] else [.str (utf8 (String.mk run.reverse))]
  | c :: cs, run =>
    if c = '"' then
      .str (utf8 (String.mk run.reverse)) :: .str (utf8 "\"\"") :: quotedOps cs []
    else if c = '\r' then
      .str (utf8 (String.mk run.reverse)) :: .byte 13 :: quotedOps cs []
    else if c = '\n' then
      .str (utf8 (String.mk run.reverse)) :: .byte 10 :: quotedOps cs []
    else quotedOps cs (c :: run)

/-- Calls for one field. -/
def fieldOps (field : String) : List BufOp :=
  if fieldNeedsQuotes field then
    .byte 34 :: (quotedOps field.data [] ++ [.byte 34])
  else [.str (utf8 field)]

/-- Calls for the fields of a record from the `n`-th on: a comma before every
field but the first. -/
def fieldsOps : Nat → List String → List BufOp
  | _, [] => []
  | n, f :: fs => (if n > 0 then [BufOp.byte 44] else []) ++ fieldOps f ++ fieldsOps (n + 1) fs

/-- Calls of `cw.Write(record)`: the fields, then a line feed. -/
def recordOps (record : List String) : List BufOp :=
  fieldsOps 0 record ++ [.byte 10]

/-- The line of a record in the CSV document. -/
def csvLine (record : List String) : Bytes :=
  (recordOps record).flatMap BufOp.bytes

/-- The CSV document of a list of records. -/
def csvText (records : List (List String)) : Bytes :=
  records.flatMap csvLine

/-- `cw.Write(record)` for the writer of `csv.NewWriter(w)`. -/
def csvWrite (b : BufWriter) (w : ResponseWriter) (record : List String) :
    BufWriter × ResponseWriter × Option String :=
  runOps (recordOps record) b w

/-! ## Handlers -/

/-- What one handler call leaves behind: the response, the table, the lines
logged, the statements sent to the database and the records that
`cw.Write` accepted. -/
structure Outcome where
  w : ResponseWriter
  db : Store
  log : List String
  calls : List DbCall
  records : List (List String)

/-- The handler registered for `/`. -/
def handleRoot (db : Store) (env : Env) (_r : Request) : Outcome :=
  let w1 := (ResponseWriter.new env).Set "Content-Type" "text/plain; charset=utf-8"
  { w := (w1.Write (utf8 "OK\n")).1, db := db, log := [], calls := [], records := [] }

/-- The map `resp` built by `handleSubmit`. -/
def submitResp (id : Int) (inp : submissionInput) : List (String × JsonValue) :=
  [("id", .int id), ("first_name", .str inp.FirstName), ("last_name", .str inp.LastName),
   ("email", .str inp.Email), ("exported", .int 0)]

/-- `handleSubmit`. -/
def handleSubmit (db : Store) (env : Env) (r : Request) : Outcome :=
  let w := ResponseWriter.new env
  if r.method ≠ "POST" then
    { w := httpError w "method not allowed" 405, db := db, log := [], calls := [],
      records := [] }
  else
    match r.body with
    | none =>
      { w := httpError w "invalid JSON body" 400, db := db, log := [], calls := [],
        records := [] }
    | some inp =>
      if inp.FirstName = "" ∨ inp.LastName = "" ∨ inp.Email = "" then
        { w := httpError w "first_name, last_name, and email are required" 400, db := db,
          log := [], calls := [], records := [] }
      else
        match db.insert env inp.FirstName inp.LastName inp.Email with
        | .error e =>
          { w := httpError w "failed to save submission" 500, db := db,
            log := ["insert error: " ++ e],
            calls := [.exec inp.FirstName inp.LastName inp.Email], records := [] }
        | .ok (db1, id) =>
          let w1 := w.Set "Content-Type" "application/json"
          let w2 := w1.WriteHeader 201
          let w3 := (w2.Write (env.jsonEncode (submitResp id inp) ++ [10])).1
          { w := w3, db := db1, log := [],
            calls := [.exec inp.FirstName inp.LastName inp.Email], records := [] }

/-- The header record of the export. -/
def csvHeader : List String :=
  ["id", "first_name", "last_name", "email", "exported", "created_at"]

/-- `strconv.Itoa`. -/
def Itoa (n : Int) : String := Int.repr n

/-- The `record` built from a scanned row. -/
def record (r : Submission) : List String :=
  [Itoa r.id, r.first_name, r.last_name, r.email, Itoa r.exported, r.created_at]

/-- State carried through the row loop of `handleExport`. -/
structure ExportState where
  w : ResponseWriter
  cw : BufWriter
  log : List String
  records : List (List String)

/-- The loop `for rows.Next()` of `handleExport` over the rows the query
returns, the next one having index `i`. The flag is `true` when the loop ends
and the handler goes on to `cw.Flush()`, `false` when the handler returned
from inside the loop. -/
def exportRows (env : Env) : Nat → List Submission → ExportState → ExportState × Bool
  | _, [], st => (st, true)
  | i, r :: rs, st =>
    if env.nextErr = some i then (st, true)
    else
      match env.scanErr i with
      | some e =>
        ({ st with log := st.log ++ ["scan error: " ++ e],
                   w := httpError st.w "failed to read data" 500 }, false)
      | none =>
        match csvWrite st.cw st.w (record r) with
        | (cw1, w1, some e) =>
          ({ st with cw := cw1, w := w1, log := st.log ++ ["csv write error: " ++ e] }, false)
        | (cw1, w1, none) =>
          exportRows env (i + 1) rs
            { st with cw := cw1, w := w1, records := st.records ++ [record r] }

/-- The bound argument of the select: `exported` must be the string `0` or
the string `1` for a filter to be applied. -/
def exportFilter (exportedParam : String) : Option Int :=
  if exportedParam = "0" then some 0
  else if exportedParam = "1" then some 1
  else none

/-- Second half of `handleExport`, from the response header fields on: what the
handler does once `db.Query` has returned the rows of `filter`, on the
response `w`. -/
def writeCsv (db : Store) (env : Env) (filter : Option Int) (w : ResponseWriter) : Outcome :=
  let w1 := w.Set "Content-Type" "text/csv; charset=utf-8"
  let w2 := w1.Set "Content-Disposition" "attachment; filename=\"submissions.csv\""
  match csvWrite BufWriter.new w2 csvHeader with
  | (_, w3, some e) =>
    { w := w3, db := db, log := ["csv header error: " ++ e], calls := [.query filter],
      records := [] }
  | (cw1, w3, none) =>
    match exportRows env 0 (db.select filter)
        { w := w3, cw := cw1, log := [], records := [csvHeader] } with
    | (st, false) =>
      { w := st.w, db := db, log := st.log, calls := [.query filter],
        records := st.records }
    | (st, true) =>
      match st.cw.Flush st.w with
      | (cw2, w4) =>
        { w := w4, db := db,
          log := st.log ++
            (match cw2.err with
             | some e => ["csv flush error: " ++ e]
             | none => []),
          calls := [.query filter], records := st.records }

/-- `handleExport`, for the configured `exportPassword`: method check, password
check, select, then `writeCsv`. -/
def handleExport (exportPassword : String) (db : Store) (env : Env) (r : Request) : Outcome :=
  let w := ResponseWriter.new env
  if r.method ≠ "GET" then
    { w := httpError w "method not allowed" 405, db := db, log := [], calls := [],
      records := [] }
  else if exportPassword ≠ "" ∧
      (Values.Get r.query "password" = "" ∨ Values.Get r.query "password" ≠ exportPassword) then
    { w := httpError (w.Set "WWW-Authenticate" "Basic realm=\"Export Protected\"")
             "Unauthorized" 401,
      db := db, log := [], calls := [], records := [] }
  else
    let filter := exportFilter (Values.Get r.query "exported")
    match env.queryErr with
    | some e =>
      { w := httpError w "failed to query data" 500, db := db,
        log := ["select error: " ++ e], calls := [.query filter], records := [] }
    | none => writeCsv db env filter w

/-! ## The server -/

/-- The route table registered in `main`: `/submit`, `/export`, and `/` for
every other path. -/
def serve (exportPassword : String) (db : Store) (env : Env) (r : Request) : Outcome :=
  if r.path = "/submit" then handleSubmit db env r
  else if r.path = "/export" then handleExport exportPassword db env r
  else handleRoot db env r

/-- The table after a sequence of requests, each with its own outside inputs. -/
def run (exportPassword : String) : Store → List (Request × Env) → Store
  | db, [] => db
  | db, (r, env) :: rest => run exportPassword (serve exportPassword db env r).db rest

/-! ## Predicates used in the statements -/

/-- The request passes the password check of `handleExport`: no password is
configured, or the `password` parameter equals the configured one. -/
def Authorised (exportPassword : String) (r : Request) : Prop :=
  exportPassword = "" ∨ Values.Get r.query "password" = exportPassword

instance (exportPassword : String) (r : Request) : Decidable (Authorised exportPassword r) := by
  unfold Authorised; infer_instance

/-- No scan of a row fails. -/
def NoScanFailure (env : Env) : Prop := ∀ j, env.scanErr j = none

/-- The select succeeds, `rows.Next()` delivers every row and every scan
succeeds. -/
def NoStoreFailure (env : Env) : Prop :=
  env.queryErr = none ∧ env.nextErr = none ∧ NoScanFailure env

/-- The lines `handleExport` logs when writing CSV fails. -/
def IsCsvErrorLine (l : String) : Prop :=
  ∃ e, l = "csv header error: " ++ e ∨ l = "csv write error: " ++ e ∨
    l = "csv flush error: " ++ e

/-- The rows of the table that an `exported` parameter selects. -/
def selected (db : Store) (r : Request) : List Submission :=
  db.select (exportFilter (Values.Get r.query "exported"))

/-- Every row has its three text fields filled in and is not marked exported. -/
def StoreInv (db : Store) : Prop :=
  ∀ row ∈ db.rows, row.first_name ≠ "" ∧ row.last_name ≠ "" ∧ row.email ≠ "" ∧
    row.exported = 0

/-- Two sets of outside inputs that agree on everything but the text of the
store errors: the same calls fail, with possibly different messages. -/
def SameFailures (env1 env2 : Env) : Prop :=
  env1.now = env2.now ∧ env1.room = env2.room ∧ env1.connErr = env2.connErr ∧
  env1.jsonEncode = env2.jsonEncode ∧ env1.nextErr = env2.nextErr ∧
  env1.insertErr.isSome = env2.insertErr.isSome ∧
  env1.queryErr.isSome = env2.queryErr.isSome ∧
  ∀ j, (env1.scanErr j).isSome = (env2.scanErr j).isSome

/-- Invariant tying a buffered writer and its response to the bytes `S` handed
to the buffered writer so far. `unl` says that the connection has no limit. -/
structure Good (unl : Prop) (S : Bytes) (b : BufWriter) (w : ResponseWriter) : Prop where
  body_pre : w.body <+: S
  stream : b.err = none → w.body ++ b.buf = S
  status : w.status = none ∨ w.status = some 200
  body_nil : w.status = none → w.body = []
  status_err : b.err ≠ none → w.status = some 200
  unlimited : unl → w.room = none ∧ b.err = none

/-- The iteration `rows.Next()` delivers the row with index `k` of the rows the
select returns: the row exists and the iteration has not given up at or
before it. -/
def Delivers (env : Env) (rows : List Submission) (k : Nat) : Prop :=
  k < rows.length ∧ ∀ j, j ≤ k → env.nextErr ≠ some j

/-- No scan fails on a row that `rows.Next()` delivers. -/
def DeliveredScansOk (env : Env) (rows : List Submission) : Prop :=
  ∀ k, Delivers env rows k → env.scanErr k = none

/-- The rows that `rows.Next()` delivers before the loop ends. -/
def delivered (env : Env) (rows : List Submission) : List Submission :=
  match env.nextErr with
  | some n => rows.take n
  | none => rows

/-- Row `k` is delivered, its scan fails with `e`, and the scans of the rows
before it succeed. -/
def FirstScanFailure (env : Env) (rows : List Submission) (k : Nat) (e : String) : Prop :=
  Delivers env rows k ∧ (∀ j, j < k → env.scanErr j = none) ∧ env.scanErr k = some e

/-- A scan fails while the header is still in the buffer of the CSV writer: the
header and the records of the rows before the failing one take no more than
the buffer holds, so nothing has been passed to the response. -/
def ScanFailsBuffered (env : Env) (rows : List Submission) : Prop :=
  ∃ k e, FirstScanFailure env rows k e ∧
    (csvText (csvHeader :: (rows.take k).map record)).length ≤ defaultBufSize

/-- What holds of a buffered writer and its response as long as no write has
failed: the response is untouched or holds at least one full buffer, and the
buffer is not over-full. -/
structure Whole (b : BufWriter) (w : ResponseWriter) : Prop where
  big : b.err = none → w.body = [] ∨ defaultBufSize ≤ w.body.length
  fresh : b.err = none → w.body = [] → w.status = none
  buf_le : b.buf.length ≤ defaultBufSize

/-! ## Concrete inputs -/

/-- Outside inputs of a request during which nothing fails. -/
def quietEnv : Env :=
  { now := "2024-01-01 00:00:00", insertErr := none, queryErr := none, nextErr := none,
    scanErr := fun _ => none, room := none, connErr := "broken pipe",
    jsonEncode := fun _ => [] }

/-- The same, on a connection that accepts no byte any more. -/
def brokenEnv : Env := { quietEnv with room := some 0 }

/-- The same as `quietEnv`, but every scan fails. -/
def scanFailsEnv : Env := { quietEnv with scanErr := fun _ => some "boom" }

/-- The same as `quietEnv`, but the scan of the second row fails. -/
def lateScanEnv : Env :=
  { quietEnv with scanErr := fun i => if i = 1 then some "boom" else none }

/-- The submission of the scenario of the specification. -/
def adaInput : submissionInput :=
  { FirstName := "Ada", LastName := "Lovelace", Email := "ada@example.com" }

/-- `POST /submit` with `adaInput` as body. -/
def adaRequest : Request :=
  { method := "POST", path := "/submit", query := [], body := some adaInput }

/-- `POST /submit` with a body that lacks `email`. -/
def noEmailRequest : Request :=
  { method := "POST", path := "/submit", query := [],
    body := some { FirstName := "Ada", LastName := "Lovelace", Email := "" } }

/-- `GET /export` without any parameter. -/
def exportRequest : Request :=
  { method := "GET", path := "/export", query := [], body := none }

/-- `GET /export?password=guess`. -/
def guessRequest : Request :=
  { method := "GET", path := "/export", query := [("password", "guess")], body := none }

/-- The row that `adaRequest` creates in an empty table. -/
def adaRow : Submission :=
  { id := 1, first_name := "Ada", last_name := "Lovelace", email := "ada@example.com",
    exported := 0, created_at := "2024-01-01 00:00:00" }

/-- A table with one row. -/
def oneRow : Store := { rows := [adaRow], seq := 1 }

/-- A first name of 5000 letters. -/
def longName : String := String.mk (List.replicate 5000 'a')

/-- A table whose only row does not fit into the buffer of the CSV writer. -/
def bigStore : Store :=
  { rows := [{ adaRow with first_name := longName }], seq := 1 }

/-- A table whose first row does not fit into the buffer of the CSV writer,
followed by a second row. -/
def twoRows : Store :=
  { rows := [{ adaRow with first_name := longName }, { adaRow with id := 2 }], seq := 2 }

/-! ## Lemmas: the response writer -/

theorem utf8_append (a b : String) : utf8 (a ++ b) = utf8 a ++ utf8 b := by
  simp [utf8, String.data_append, List.flatMap_append]

theorem WriteHeader_body (w : ResponseWriter) (c : Nat) : (w.WriteHeader c).body = w.body := by
  unfold ResponseWriter.WriteHeader; split <;> rfl

theorem WriteHeader_room (w : ResponseWriter) (c : Nat) : (w.WriteHeader c).room = w.room := by
  unfold ResponseWriter.WriteHeader; split <;> rfl

theorem WriteHeader_status (w : ResponseWriter) (c : Nat) :
    (w.WriteHeader c).status = some (w.status.getD c) := by
  unfold ResponseWriter.WriteHeader; split <;> simp_all

/-- Every write sends a status; it is 200 unless one went out before. -/
theorem Write_status (w : ResponseWriter) (p : Bytes) :
    (w.Write p).1.status = some (w.status.getD 200) := by
  unfold ResponseWriter.Write
  simp only []
  split
  · simp [WriteHeader_status]
  · split <;> simp [WriteHeader_status]

/-- A write adds to the body a leading part of what it was given, all of it
when it reports no error. -/
theorem Write_body (w : ResponseWriter) (p : Bytes) :
    (w.Write p).1.body = w.body ++ p.take (w.Write p).2.1 ∧
    (w.Write p).2.1 ≤ p.length ∧
    ((w.Write p).2.2 = none → (w.Write p).2.1 = p.length) ∧
    ((w.Write p).2.2 ≠ none → (w.Write p).2.1 < p.length) := by
  unfold ResponseWriter.Write
  simp only []
  split
  · simp [WriteHeader_body]
  · split
    · simp [WriteHeader_body]
    · rename_i r _ h
      simp [WriteHeader_body]
      omega

/-- A connection without a limit takes every write and stays without a limit. -/
theorem Write_room_none (w : ResponseWriter) (p : Bytes) (h : w.room = none) :
    (w.Write p).2.2 = none ∧ (w.Write p).1.room = none := by
  unfold ResponseWriter.Write
  simp only []
  have h1 : (w.WriteHeader 200).room = none := by rw [WriteHeader_room, h]
  split
  · simp [*]
  · simp_all

/-! ## Lemmas: the buffered writer -/

theorem Good.mono {unl : Prop} {S : Bytes} {b : BufWriter} {w : ResponseWriter}
    (h : Good unl S b w) (x : Bytes) (he : b.err ≠ none) : Good unl (S ++ x) b w where
  body_pre := h.body_pre.trans (List.prefix_append S x)
  stream := fun h0 => absurd h0 he
  status := h.status
  body_nil := h.body_nil
  status_err := h.status_err
  unlimited := h.unlimited

theorem Good.status_getD {unl : Prop} {S : Bytes} {b : BufWriter} {w : ResponseWriter}
    (h : Good unl S b w) : w.status.getD 200 = 200 := by
  rcases h.status with h1 | h1 <;> simp [h1]

theorem Flush_good {unl : Prop} {S : Bytes} {b : BufWriter} {w : ResponseWriter}
    (h : Good unl S b w) :
    Good unl S (b.Flush w).1 (b.Flush w).2 ∧ ((b.Flush w).1.err = none → (b.Flush w).1.buf = []) := by
  unfold BufWriter.Flush
  split
  · rename_i e he
    exact ⟨h, fun h0 => by simp [he] at h0⟩
  · rename_i he
    split
    · rename_i hl
      exact ⟨h, fun _ => List.length_eq_zero.mp hl⟩
    · have hb := Write_body w b.buf
      have hs := Write_status w b.buf
      have hr := Write_room_none w b.buf
      rw [h.status_getD] at hs
      generalize w.Write b.buf = r at hb hs hr
      obtain ⟨w1, n, e⟩ := r
      simp only [] at hb hs hr
      have hst := h.stream he
      cases e with
      | some e =>
        refine ⟨⟨?_, ?_, Or.inr hs, ?_, fun _ => hs, ?_⟩, ?_⟩
        · rw [hb.1, ← hst]
          exact (List.prefix_append_right_inj _).mpr (List.take_prefix _ _)
        · intro h0; simp at h0
        · intro h0; simp [hs] at h0
        · intro hu
          have := (hr (h.unlimited hu).1).1
          simp at this
        · intro h0; simp at h0
      | none =>
        have hn := hb.2.2.1 rfl
        refine ⟨⟨?_, ?_, Or.inr hs, ?_, ?_, ?_⟩, ?_⟩
        · rw [hb.1, hn, List.take_length, hst]
        · intro _
          simp only [List.append_nil]
          rw [hb.1, hn, List.take_length, hst]
        · intro h0; simp [hs] at h0
        · intro h0; simp at h0
        · intro hu
          exact ⟨(hr (h.unlimited hu).1).2, rfl⟩
        · intro _; rfl

theorem WriteByte_good {unl : Prop} {S : Bytes} {b : BufWriter} {w : ResponseWriter}
    (h : Good unl S b w) (c : UInt8) :
    Good unl (S ++ [c]) (b.WriteByte w c).1 (b.WriteByte w c).2.1 ∧
    (b.WriteByte w c).2.2 = (b.WriteByte w c).1.err := by
  unfold BufWriter.WriteByte
  simp only []
  have hr : Good unl S (if b.Available ≤ 0 ∧ b.err = none then b.Flush w else (b, w)).1
      (if b.Available ≤ 0 ∧ b.err = none then b.Flush w else (b, w)).2 := by
    split
    · exact (Flush_good h).1
    · exact h
  generalize (if b.Available ≤ 0 ∧ b.err = none then b.Flush w else (b, w)) = r at hr
  obtain ⟨b1, w1⟩ := r
  simp only [] at hr ⊢
  cases he : b1.err with
  | some e =>
    simp only []
    exact ⟨hr.mono [c] (by simp [he]), he.symm⟩
  | none =>
    simp only []
    refine ⟨⟨?_, ?_, hr.status, hr.body_nil, ?_, ?_⟩, trivial⟩
    · exact hr.body_pre.trans (List.prefix_append S [c])
    · intro _
      simp only []
      rw [← List.append_assoc, hr.stream he]
    · intro h0; simp at h0
    · intro hu; exact ⟨(hr.unlimited hu).1, rfl⟩

theorem writeStringLoop_good {unl : Prop} (fuel : Nat) :
    ∀ (s S : Bytes) (b : BufWriter) (w : ResponseWriter), Good unl S b w →
      ∃ done : Bytes, done ++ (BufWriter.writeStringLoop fuel s b w).1 = s ∧
        Good unl (S ++ done) (BufWriter.writeStringLoop fuel s b w).2.1
          (BufWriter.writeStringLoop fuel s b w).2.2 := by
  induction fuel with
  | zero =>
    intro s S b w h
    exact ⟨[], by simp [BufWriter.writeStringLoop], by simpa [BufWriter.writeStringLoop] using h⟩
  | succ fuel ih =>
    intro s S b w h
    unfold BufWriter.writeStringLoop
    split
    · rename_i hc
      have he := hc.2
      split
      · rename_i hl
        have hbuf : b.buf = [] := List.length_eq_zero.mp hl
        have hb := Write_body w s
        have hs := Write_status w s
        have hr := Write_room_none w s
        rw [h.status_getD] at hs
        generalize w.Write s = r at hb hs hr
        obtain ⟨w1, n, e⟩ := r
        simp only [] at hb hs hr ⊢
        have hst : w.body = S := by simpa [hbuf] using h.stream he
        have hg : Good unl (S ++ s.take n) { b with err := e } w1 := by
          refine ⟨?_, ?_, Or.inr hs, ?_, fun _ => hs, ?_⟩
          · rw [hb.1, hst]
          · intro _
            simp only [hbuf, List.append_nil]
            rw [hb.1, hst]
          · intro h0; simp [hs] at h0
          · intro hu
            exact ⟨(hr (h.unlimited hu).1).2, (hr (h.unlimited hu).1).1⟩
        obtain ⟨d, hd1, hd2⟩ := ih (s.drop n) _ _ _ hg
        refine ⟨s.take n ++ d, ?_, ?_⟩
        · rw [List.append_assoc, hd1, List.take_append_drop]
        · rw [← List.append_assoc]; exact hd2
      · have hg : Good unl (S ++ s.take (min b.Available s.length))
            { b with buf := b.buf ++ s.take (min b.Available s.length) } w := by
          refine ⟨?_, ?_, h.status, h.body_nil, ?_, ?_⟩
          · exact h.body_pre.trans (List.prefix_append S _)
          · intro _
            simp only []
            rw [← List.append_assoc, h.stream he]
          · intro h0; exact absurd he h0
          · intro hu; exact ⟨(h.unlimited hu).1, he⟩
        obtain ⟨d, hd1, hd2⟩ := ih (s.drop (min b.Available s.length)) _ _ _ (Flush_good hg).1
        refine ⟨s.take (min b.Available s.length) ++ d, ?_, ?_⟩
        · rw [List.append_assoc]
          exact (congrArg (fun t => s.take (min b.Available s.length) ++ t) hd1).trans
            (List.take_append_drop _ _)
        · rw [← List.append_assoc]; exact hd2
    · exact ⟨[], by simp, by simpa using h⟩

theorem WriteString_good {unl : Prop} {S : Bytes} {b : BufWriter} {w : ResponseWriter}
    (h : Good unl S b w) (s : Bytes) :
    Good unl (S ++ s) (b.WriteString w s).1 (b.WriteString w s).2.1 ∧
    (b.WriteString w s).2.2 = (b.WriteString w s).1.err := by
  unfold BufWriter.WriteString
  obtain ⟨d, hd1, hd2⟩ := writeStringLoop_good 2 s S b w h
  generalize BufWriter.writeStringLoop 2 s b w = r at hd1 hd2
  obtain ⟨rest, b1, w1⟩ := r
  simp only [] at hd1 hd2 ⊢
  subst hd1
  cases he : b1.err with
  | some e =>
    simp only []
    refine ⟨?_, he.symm⟩
    rw [← List.append_assoc]
    exact hd2.mono rest (by simp [he])
  | none =>
    simp only []
    refine ⟨⟨?_, ?_, hd2.status, hd2.body_nil, ?_, ?_⟩, trivial⟩
    · exact hd2.body_pre.trans (by rw [← List.append_assoc]; exact List.prefix_append _ _)
    · intro _
      simp only []
      rw [← List.append_assoc, hd2.stream he, List.append_assoc]
    · intro h0; simp at h0
    · intro hu; exact ⟨(hd2.unlimited hu).1, rfl⟩

theorem BufOp.run_good {unl : Prop} {S : Bytes} {b : BufWriter} {w : ResponseWriter}
    (h : Good unl S b w) (op : BufOp) :
    Good unl (S ++ op.bytes) (op.run b w).1 (op.run b w).2.1 ∧
    (op.run b w).2.2 = (op.run b w).1.err := by
  cases op with
  | byte c => exact WriteByte_good h c
  | str s => exact WriteString_good h s

theorem runOps_good {unl : Prop} (ops : List BufOp) :
    ∀ (S : Bytes) (b : BufWriter) (w : ResponseWriter), Good unl S b w →
      Good unl (S ++ ops.flatMap BufOp.bytes) (runOps ops b w).1 (runOps ops b w).2.1 ∧
      ((runOps ops b w).2.2 = none ∨ (runOps ops b w).2.2 = (runOps ops b w).1.err) := by
  induction ops with
  | nil =>
    intro S b w h
    simp only [runOps, List.flatMap_nil, List.append_nil]
    exact ⟨h, Or.inl trivial⟩
  | cons op ops ih =>
    intro S b w h
    have h1 := BufOp.run_good h op
    unfold runOps
    generalize op.run b w = r at h1
    obtain ⟨b1, w1, e⟩ := r
    simp only [] at h1
    cases e with
    | some e =>
      simp only [List.flatMap_cons]
      refine ⟨?_, Or.inr h1.2⟩
      rw [← List.append_assoc]
      exact h1.1.mono _ (by rw [← h1.2]; simp)
    | none =>
      simp only [List.flatMap_cons]
      rw [← List.append_assoc]
      exact ih _ _ _ h1.1

theorem csvWrite_good {unl : Prop} {S : Bytes} {b : BufWriter} {w : ResponseWriter}
    (h : Good unl S b w) (rec : List String) :
    Good unl (S ++ csvLine rec) (csvWrite b w rec).1 (csvWrite b w rec).2.1 ∧
    ((csvWrite b w rec).2.2 = none ∨ (csvWrite b w rec).2.2 = (csvWrite b w rec).1.err) :=
  runOps_good (recordOps rec) S b w h

/-! ### Two rounds of the `WriteString` loop are enough -/

theorem writeStringLoop_stop (n : Nat) (s : Bytes) (b : BufWriter) (w : ResponseWriter)
    (h : ¬(s.length > b.Available ∧ b.err = none)) :
    BufWriter.writeStringLoop n s b w = (s, b, w) := by
  cases n with
  | zero => rfl
  | succ n => unfold BufWriter.writeStringLoop; rw [if_neg h]

theorem Flush_buf (b : BufWriter) (w : ResponseWriter) (h : (b.Flush w).1.err = none) :
    (b.Flush w).1.buf = [] := by
  unfold BufWriter.Flush at h ⊢
  cases he : b.err with
  | some e => simp [he] at h
  | none =>
    simp only [he] at h ⊢
    by_cases hl : b.buf.length = 0
    · simp only [if_pos hl]
      exact List.length_eq_zero.mp hl
    · simp only [if_neg hl] at h ⊢
      generalize w.Write b.buf = r at h ⊢
      obtain ⟨w2, k, e⟩ := r
      cases e <;> simp at h ⊢

theorem writeStringLoop_direct (n : Nat) (s : Bytes) (b : BufWriter) (w : ResponseWriter)
    (hb : b.buf.length = 0) :
    BufWriter.writeStringLoop (n + 1) s b w = BufWriter.writeStringLoop 1 s b w := by
  unfold BufWriter.writeStringLoop
  split
  · have hw := Write_body w s
    generalize w.Write s = r at hw
    obtain ⟨w1, k, e⟩ := r
    simp only [] at hw ⊢
    have hstop : ¬((s.drop k).length > BufWriter.Available { b with err := e } ∧
        (BufWriter.mk b.buf e).err = none) := by
      rintro ⟨h1, h2⟩
      simp only [] at h2
      have := hw.2.2.1 h2
      simp [this] at h1
    rw [writeStringLoop_stop n _ _ _ hstop, writeStringLoop_stop 0 _ _ _ hstop]
  · rfl

/-- More than two rounds of the loop of `WriteString` change nothing: when the
text does not fit, the first round fills and flushes the buffer, the second
passes the rest straight on, and then either nothing is left or an error is
kept. -/
theorem writeStringLoop_done (n : Nat) (s : Bytes) (b : BufWriter) (w : ResponseWriter) :
    BufWriter.writeStringLoop (n + 2) s b w = BufWriter.writeStringLoop 2 s b w := by
  by_cases hb : b.buf.length = 0
  · rw [writeStringLoop_direct (n + 1) s b w hb, writeStringLoop_direct 1 s b w hb]
  · unfold BufWriter.writeStringLoop
    split
    · simp only []
      have hf := Flush_buf { b with buf := b.buf ++ s.take (min b.Available s.length) } w
      generalize BufWriter.Flush
        { b with buf := b.buf ++ s.take (min b.Available s.length) } w = r at hf ⊢
      obtain ⟨b1, w1⟩ := r
      simp only [] at hf ⊢
      by_cases he : b1.err = none
      · exact writeStringLoop_direct n _ b1 w1 (by rw [hf he]; rfl)
      · have hstop : ¬((s.drop (min b.Available s.length)).length > b1.Available ∧
            b1.err = none) := fun h => he h.2
        rw [writeStringLoop_stop (n + 1) _ _ _ hstop, writeStringLoop_stop 1 _ _ _ hstop]
    · rfl

theorem writeStringLoop_one_exit (s : Bytes) (b : BufWriter) (w : ResponseWriter)
    (hb : b.err = none → b.buf.length = 0) :
    ¬((BufWriter.writeStringLoop 1 s b w).1.length >
        (BufWriter.writeStringLoop 1 s b w).2.1.Available ∧
      (BufWriter.writeStringLoop 1 s b w).2.1.err = none) := by
  unfold BufWriter.writeStringLoop
  split
  · rename_i hc
    rw [if_pos (hb hc.2)]
    have hw := Write_body w s
    generalize w.Write s = r at hw
    obtain ⟨w1, k, e⟩ := r
    simp only [] at hw ⊢
    rw [writeStringLoop_stop 0]
    · rintro ⟨h1, h2⟩
      simp only [] at h2
      have := hw.2.2.1 h2
      simp [this] at h1
    · rintro ⟨h1, h2⟩
      simp only [] at h2
      have := hw.2.2.1 h2
      simp [this] at h1
  · rename_i hc
    exact hc

/-- After the two rounds of the loop of `WriteString` what is left fits into
the buffer, or an error is kept. -/
theorem writeStringLoop_exit (s : Bytes) (b : BufWriter) (w : ResponseWriter) :
    ¬((BufWriter.writeStringLoop 2 s b w).1.length >
        (BufWriter.writeStringLoop 2 s b w).2.1.Available ∧
      (BufWriter.writeStringLoop 2 s b w).2.1.err = none) := by
  rw [show (2 : Nat) = 1 + 1 from rfl]
  unfold BufWriter.writeStringLoop
  split
  · split
    · rename_i hb
      generalize w.Write s = r
      obtain ⟨w1, k, e⟩ := r
      exact writeStringLoop_one_exit _ _ _ (fun _ => hb)
    · simp only []
      have hf := Flush_buf { b with buf := b.buf ++ s.take (min b.Available s.length) } w
      generalize BufWriter.Flush
        { b with buf := b.buf ++ s.take (min b.Available s.length) } w = r at hf ⊢
      obtain ⟨b1, w1⟩ := r
      exact writeStringLoop_one_exit _ _ _ (fun he => by rw [hf he]; rfl)
  · rename_i hc
    exact hc

/-! ## Lemmas: what has gone out while no write has failed -/

/-- Flushing a full buffer. -/
theorem Flush_whole (b : BufWriter) (w : ResponseWriter)
    (hfull : defaultBufSize ≤ b.buf.length) (hle : b.buf.length ≤ defaultBufSize) :
    Whole (b.Flush w).1 (b.Flush w).2 := by
  have hpos : 0 < b.buf.length := Nat.lt_of_lt_of_le (by decide) hfull
  unfold BufWriter.Flush
  cases he : b.err with
  | some e =>
    simp only []
    exact ⟨fun h => absurd (he.symm.trans h) (by simp),
      fun h => absurd (he.symm.trans h) (by simp), hle⟩
  | none =>
    simp only []
    rw [if_neg (Nat.pos_iff_ne_zero.mp hpos)]
    have hb := Write_body w b.buf
    generalize w.Write b.buf = r at hb
    obtain ⟨w1, n, e⟩ := r
    simp only [] at hb
    cases e with
    | some e =>
      refine ⟨fun h => by simp at h, fun h => by simp at h, ?_⟩
      simp only [List.length_drop]
      omega
    | none =>
      have hn := hb.2.2.1 rfl
      have hlen : defaultBufSize ≤ w1.body.length := by
        rw [hb.1, hn, List.take_length, List.length_append]
        omega
      refine ⟨fun _ => Or.inr hlen, fun _ h0 => ?_, by simp⟩
      rw [h0] at hlen
      exact absurd hlen (by decide)

theorem WriteByte_whole (b : BufWriter) (w : ResponseWriter) (c : UInt8) (h : Whole b w) :
    Whole (b.WriteByte w c).1 (b.WriteByte w c).2.1 := by
  unfold BufWriter.WriteByte
  simp only []
  by_cases hc : b.Available ≤ 0 ∧ b.err = none
  · rw [if_pos hc]
    have hfull : defaultBufSize ≤ b.buf.length := by
      have := hc.1
      unfold BufWriter.Available at this
      omega
    have hf := Flush_whole b w hfull h.buf_le
    have hbuf := Flush_buf b w
    generalize b.Flush w = r at hf hbuf
    obtain ⟨b1, w1⟩ := r
    simp only [] at hf hbuf ⊢
    cases he : b1.err with
    | some e => simpa [he] using hf
    | none =>
      simp only []
      refine ⟨fun _ => hf.big he, fun _ => hf.fresh he, ?_⟩
      simp only [hbuf he, List.nil_append, List.length_singleton]
      decide
  · rw [if_neg hc]
    cases he : b.err with
    | some e => simpa [he] using h
    | none =>
      simp only []
      refine ⟨fun _ => h.big he, fun _ => h.fresh he, ?_⟩
      have : ¬(b.Available ≤ 0) := fun h0 => hc ⟨h0, he⟩
      unfold BufWriter.Available at this
      simp only [List.length_append, List.length_singleton]
      omega

theorem writeStringLoop_whole (fuel : Nat) :
    ∀ (s : Bytes) (b : BufWriter) (w : ResponseWriter), Whole b w →
      Whole (BufWriter.writeStringLoop fuel s b w).2.1
        (BufWriter.writeStringLoop fuel s b w).2.2 := by
  induction fuel with
  | zero => intro s b w h; exact h
  | succ fuel ih =>
    intro s b w h
    unfold BufWriter.writeStringLoop
    split
    · rename_i hc
      split
      · rename_i hb
        have hw := Write_body w s
        generalize w.Write s = r at hw
        obtain ⟨w1, n, e⟩ := r
        simp only [] at hw ⊢
        refine ih _ _ _ ⟨fun he => Or.inr ?_, fun he h0 => ?_, h.buf_le⟩
        · simp only [] at he
          have hlen := hc.1
          unfold BufWriter.Available at hlen
          rw [hw.1, hw.2.2.1 he, List.take_length, List.length_append]
          omega
        · simp only [] at he
          have hlen := hc.1
          rw [hw.1, hw.2.2.1 he, List.take_length] at h0
          have : s = [] := (List.append_eq_nil.mp h0).2
          rw [this] at hlen
          simp at hlen
      · refine ih _ _ _ (Flush_whole _ w ?_ ?_)
        · have hlen := hc.1
          have hle := h.buf_le
          unfold BufWriter.Available at hlen ⊢
          simp only [List.length_append, List.length_take]
          omega
        · have hle := h.buf_le
          unfold BufWriter.Available
          simp only [List.length_append, List.length_take]
          omega
    · exact h

theorem WriteString_whole (b : BufWriter) (w : ResponseWriter) (s : Bytes) (h : Whole b w) :
    Whole (b.WriteString w s).1 (b.WriteString w s).2.1 := by
  unfold BufWriter.WriteString
  have hl := writeStringLoop_whole 2 s b w h
  have hx := writeStringLoop_exit s b w
  generalize BufWriter.writeStringLoop 2 s b w = r at hl hx
  obtain ⟨rest, b1, w1⟩ := r
  simp only [] at hl hx ⊢
  cases he : b1.err with
  | some e => simpa [he] using hl
  | none =>
    simp only []
    refine ⟨fun _ => hl.big he, fun _ => hl.fresh he, ?_⟩
    have hle := hl.buf_le
    have : ¬(rest.length > b1.Available) := fun h0 => hx ⟨h0, he⟩
    unfold BufWriter.Available at this
    simp only [List.length_append]
    omega

theorem runOps_whole (ops : List BufOp) :
    ∀ (b : BufWriter) (w : ResponseWriter), Whole b w →
      Whole (runOps ops b w).1 (runOps ops b w).2.1 := by
  induction ops with
  | nil => intro b w h; exact h
  | cons op ops ih =>
    intro b w h
    have h1 : Whole (op.run b w).1 (op.run b w).2.1 := by
      cases op with
      | byte c => exact WriteByte_whole b w c h
      | str s => exact WriteString_whole b w s h
    unfold runOps
    generalize op.run b w = r at h1
    obtain ⟨b1, w1, e⟩ := r
    cases e with
    | some e => exact h1
    | none => exact ih _ _ h1

theorem csvWrite_whole (b : BufWriter) (w : ResponseWriter) (rec : List String)
    (h : Whole b w) : Whole (csvWrite b w rec).1 (csvWrite b w rec).2.1 :=
  runOps_whole (recordOps rec) b w h

/-- A call of `cw.Write` returns the error that the buffered writer keeps. -/
theorem runOps_err {unl : Prop} (ops : List BufOp) :
    ∀ (S : Bytes) (b : BufWriter) (w : ResponseWriter), Good unl S b w → ops ≠ [] →
      (runOps ops b w).2.2 = (runOps ops b w).1.err := by
  induction ops with
  | nil => intro S b w _ h; exact absurd rfl h
  | cons op ops ih =>
    intro S b w h _
    have h1 := BufOp.run_good h op
    unfold runOps
    generalize op.run b w = r at h1
    obtain ⟨b1, w1, e⟩ := r
    simp only [] at h1
    cases e with
    | some e => exact h1.2
    | none =>
      simp only []
      cases ops with
      | nil => simpa [runOps] using h1.2
      | cons op2 ops2 => exact ih _ _ _ h1.1 (by simp)

theorem csvWrite_err {unl : Prop} {S : Bytes} {b : BufWriter} {w : ResponseWriter}
    (h : Good unl S b w) (rec : List String) :
    (csvWrite b w rec).2.2 = (csvWrite b w rec).1.err :=
  runOps_err (recordOps rec) S b w h (by simp [recordOps])

/-! ## Lemmas: writes that fit into the buffer -/

theorem WriteByte_small (b : BufWriter) (w : ResponseWriter) (c : UInt8) (he : b.err = none)
    (hl : b.buf.length + 1 ≤ defaultBufSize) :
    b.WriteByte w c = ({ buf := b.buf ++ [c], err := none }, w, none) := by
  unfold BufWriter.WriteByte
  have hc : ¬(b.Available ≤ 0 ∧ b.err = none) := by
    unfold BufWriter.Available; omega
  rw [if_neg hc]
  simp only [he]

theorem WriteString_small (b : BufWriter) (w : ResponseWriter) (s : Bytes) (he : b.err = none)
    (hl : b.buf.length + s.length ≤ defaultBufSize) :
    b.WriteString w s = ({ buf := b.buf ++ s, err := none }, w, none) := by
  unfold BufWriter.WriteString
  have hc : ¬(s.length > b.Available ∧ b.err = none) := by
    unfold BufWriter.Available; omega
  rw [writeStringLoop_stop 2 s b w hc]
  simp only [he]

theorem runOps_small (ops : List BufOp) :
    ∀ (b : BufWriter) (w : ResponseWriter), b.err = none →
      b.buf.length + (ops.flatMap BufOp.bytes).length ≤ defaultBufSize →
      runOps ops b w = ({ buf := b.buf ++ ops.flatMap BufOp.bytes, err := none }, w, none) := by
  induction ops with
  | nil =>
    intro b w he _
    cases b
    simp only [] at he
    simp [runOps, he]
  | cons op ops ih =>
    intro b w he hl
    simp only [List.flatMap_cons, List.length_append] at hl
    have h1 : op.run b w = ({ buf := b.buf ++ op.bytes, err := none }, w, none) := by
      cases op with
      | byte c =>
        simp only [BufOp.bytes, List.length_singleton] at hl
        exact WriteByte_small b w c he (by omega)
      | str s =>
        simp only [BufOp.bytes] at hl
        exact WriteString_small b w s he (by omega)
    unfold runOps
    rw [h1]
    simp only []
    rw [ih _ w rfl (by simp only [List.length_append]; omega)]
    simp [List.flatMap_cons]

/-- A record that fits into the buffer is only buffered: the response is not
touched. -/
theorem csvWrite_small (b : BufWriter) (w : ResponseWriter) (rec : List String)
    (he : b.err = none) (hl : b.buf.length + (csvLine rec).length ≤ defaultBufSize) :
    csvWrite b w rec = ({ buf := b.buf ++ csvLine rec, err := none }, w, none) :=
  runOps_small (recordOps rec) b w he hl

/-! ## Lemmas: the row loop of the export -/

theorem csvText_cons (x : List String) (xs : List (List String)) :
    csvText (x :: xs) = csvLine x ++ csvText xs := by
  simp [csvText, List.flatMap_cons]

theorem csvLine_ne_nil (rec : List String) : csvLine rec ≠ [] := by
  simp [csvLine, recordOps, List.flatMap_append, BufOp.bytes]

theorem Flush_err (b : BufWriter) (w : ResponseWriter) (h : (b.Flush w).1.err = none) :
    b.err = none := by
  unfold BufWriter.Flush at h
  cases he : b.err with
  | some e => simp [he] at h
  | none => rfl

/-- The row loop when no scan of a delivered row fails: the response and the CSV
writer stay tied to a leading part `S1` of the document, only CSV write errors
are logged, a return from inside the loop leaves an error in the writer and a
line in the log, and when the writer ends without error every row that
`rows.Next()` delivered has been written. -/
theorem exportRows_good {unl : Prop} (env : Env) (rows : List Submission) :
    ∀ (i : Nat) (S : Bytes) (st : ExportState),
      (∀ j, j < rows.length → (∀ j', j' ≤ j → env.nextErr ≠ some (i + j')) →
        env.scanErr (i + j) = none) →
      Good unl S st.cw st.w →
      ∃ S1 : Bytes, Good unl S1 (exportRows env i rows st).1.cw (exportRows env i rows st).1.w ∧
        S <+: S1 ∧ S1 <+: S ++ csvText (rows.map record) ∧
        (∀ l ∈ (exportRows env i rows st).1.log,
          l ∈ st.log ∨ ∃ e, l = "csv write error: " ++ e) ∧
        ((exportRows env i rows st).2 = false →
          (exportRows env i rows st).1.cw.err ≠ none ∧ (exportRows env i rows st).1.log ≠ []) ∧
        ((exportRows env i rows st).1.cw.err = none →
          (exportRows env i rows st).2 = true ∧ (exportRows env i rows st).1.log = st.log ∧
          ∃ tl, (exportRows env i rows st).1.records = st.records ++ tl ∧
            S1 = S ++ csvText tl ∧ (env.nextErr = none → tl = rows.map record) ∧
            (∀ n, env.nextErr = some n → i ≤ n → tl = (rows.take (n - i)).map record)) := by
  induction rows with
  | nil =>
    intro i S st _ h
    refine ⟨S, by simpa [exportRows] using h, List.prefix_refl _, by simp [csvText],
      fun l hl => Or.inl (by simpa [exportRows] using hl), by simp [exportRows], fun _ => ?_⟩
    exact ⟨rfl, rfl, [], by simp [exportRows], by simp [csvText], fun _ => rfl,
      fun _ _ _ => by simp⟩
  | cons r rs ih =>
    intro i S st hscan h
    unfold exportRows
    split
    · rename_i hn
      refine ⟨S, h, List.prefix_refl _, List.prefix_append _ _, fun l hl => Or.inl hl,
        by simp, fun _ => ?_⟩
      refine ⟨rfl, rfl, [], by simp, by simp [csvText], fun h0 => by simp [h0] at hn,
        fun n hn1 _ => ?_⟩
      rw [hn] at hn1
      injection hn1 with hn1
      subst hn1
      simp
    · rename_i hn
      have hs0 : env.scanErr i = none := by
        have := hscan 0 (by simp) (fun j' hj' => by
          have : j' = 0 := by omega
          subst this
          simpa using hn)
        simpa using this
      simp only [hs0]
      have hw := csvWrite_good h (record r)
      generalize csvWrite st.cw st.w (record r) = res at hw
      obtain ⟨cw1, w1, e⟩ := res
      simp only [] at hw
      cases e with
      | some e =>
        simp only []
        have herr : cw1.err ≠ none := by
          rcases hw.2 with h0 | h0
          · simp at h0
          · rw [← h0]; simp
        refine ⟨S ++ csvLine (record r), hw.1, List.prefix_append _ _, ?_, ?_,
          fun _ => ⟨herr, by simp⟩, fun h0 => absurd h0 herr⟩
        · simp only [List.map_cons, csvText_cons, ← List.append_assoc]
          exact List.prefix_append _ _
        · intro l hl
          rcases List.mem_append.mp hl with h1 | h1
          · exact Or.inl h1
          · exact Or.inr ⟨e, by simpa using h1⟩
      | none =>
        simp only []
        have hscan1 : ∀ j, j < rs.length →
            (∀ j', j' ≤ j → env.nextErr ≠ some (i + 1 + j')) →
            env.scanErr (i + 1 + j) = none := by
          intro j hj hn1
          have := hscan (j + 1) (by simpa using hj) (fun j' hj' => by
            cases j' with
            | zero => simpa using hn
            | succ j2 =>
              have := hn1 j2 (by omega)
              rwa [show i + 1 + j2 = i + (j2 + 1) by omega] at this)
          rwa [show i + (j + 1) = i + 1 + j by omega] at this
        obtain ⟨S1, g1, p1, p2, hlog, hret, hfin⟩ :=
          ih (i + 1) (S ++ csvLine (record r))
            { st with cw := cw1, w := w1, records := st.records ++ [record r] } hscan1 hw.1
        refine ⟨S1, g1, (List.prefix_append _ _).trans p1, ?_, hlog, hret, fun h0 => ?_⟩
        · simpa only [List.map_cons, csvText_cons, ← List.append_assoc] using p2
        · obtain ⟨h1, h2, tl, h3, h4, h5, h6⟩ := hfin h0
          refine ⟨h1, h2, record r :: tl, ?_, ?_, fun h0 => ?_, fun n hn1 hle => ?_⟩
          · rw [h3]; simp
          · rw [h4, csvText_cons, List.append_assoc]
          · rw [h5 h0]; rfl
          · have hne : n ≠ i := fun h7 => hn (by rw [hn1, h7])
            rw [h6 n hn1 (by omega), show n - i = (n - (i + 1)) + 1 by omega,
              List.take_succ_cons, List.map_cons]

/-! ## Lemmas: `handleExport` -/

theorem not_denied {exportPassword : String} {r : Request} (h : Authorised exportPassword r) :
    ¬(exportPassword ≠ "" ∧ (Values.Get r.query "password" = "" ∨
      Values.Get r.query "password" ≠ exportPassword)) := by
  rintro ⟨h1, h2⟩
  rcases h with h | h
  · exact h1 h
  · rcases h2 with h2 | h2
    · exact h1 (h ▸ h2)
    · exact h2 h

theorem handleExport_query_ok (exportPassword : String) (db : Store) (env : Env)
    (r : Request) (hm : r.method = "GET")
    (hd : ¬(exportPassword ≠ "" ∧ (Values.Get r.query "password" = "" ∨
      Values.Get r.query "password" ≠ exportPassword)))
    (hq : env.queryErr = none) :
    handleExport exportPassword db env r =
      writeCsv db env (exportFilter (Values.Get r.query "exported")) (ResponseWriter.new env) := by
  unfold handleExport
  conv => zeta
  rw [if_neg (not_not.mpr hm), if_neg hd]
  simp only [hq]

theorem noScan_delivered {env : Env} (h : NoScanFailure env) (rows : List Submission) :
    DeliveredScansOk env rows :=
  fun k _ => h k

theorem header_fits : (csvLine csvHeader).length ≤ defaultBufSize := by
  decide!

/-- The state of `writeCsv` after the header has been handed to the CSV writer:
the header sits in the buffer, the response is untouched. -/
theorem header_written (w : ResponseWriter) :
    csvWrite BufWriter.new w csvHeader =
      ({ buf := csvLine csvHeader, err := none }, w, none) := by
  rw [csvWrite_small BufWriter.new w csvHeader rfl
    (by simp only [BufWriter.new, List.length_nil, Nat.zero_add]; exact header_fits)]
  simp [BufWriter.new]

theorem Good_header (env : Env) :
    Good (env.room = none) (csvLine csvHeader) { buf := csvLine csvHeader, err := none }
      (((ResponseWriter.new env).Set "Content-Type" "text/csv; charset=utf-8").Set
        "Content-Disposition" "attachment; filename=\"submissions.csv\"") := by
  refine ⟨?_, ?_, Or.inl rfl, fun _ => rfl, ?_, ?_⟩
  · exact List.nil_prefix
  · intro _; rfl
  · intro h; exact absurd rfl h
  · intro h; exact ⟨h, rfl⟩

theorem Whole_header (env : Env) :
    Whole { buf := csvLine csvHeader, err := none }
      (((ResponseWriter.new env).Set "Content-Type" "text/csv; charset=utf-8").Set
        "Content-Disposition" "attachment; filename=\"submissions.csv\"") :=
  ⟨fun _ => Or.inl rfl, fun _ _ => rfl, header_fits⟩

/-- An authorised export whose select succeeds and in which no scan of a
delivered row fails: status 200, a body that is a leading part of the CSV
document of the selected rows, nothing but CSV write errors in the log, and
the whole document of the delivered rows in the body when nothing is logged;
on a connection without limit the body is the document of the records
written, header first. -/
theorem handleExport_stream (exportPassword : String) (db : Store) (env : Env) (r : Request)
    (hm : r.method = "GET") (ha : Authorised exportPassword r)
    (hq : env.queryErr = none) (hs : DeliveredScansOk env (selected db r)) :
    (handleExport exportPassword db env r).w.status = some 200 ∧
    (handleExport exportPassword db env r).w.body <+:
      csvText (csvHeader :: (selected db r).map record) ∧
    (∀ l ∈ (handleExport exportPassword db env r).log, IsCsvErrorLine l) ∧
    ((handleExport exportPassword db env r).log = [] →
      (handleExport exportPassword db env r).w.body =
        csvText (csvHeader :: (delivered env (selected db r)).map record)) ∧
    (env.room = none →
      (handleExport exportPassword db env r).w.body =
        csvText (handleExport exportPassword db env r).records ∧
      (handleExport exportPassword db env r).log = [] ∧
      ∃ tl, (handleExport exportPassword db env r).records = csvHeader :: tl ∧
        (env.nextErr = none → tl = (selected db r).map record)) := by
  rw [handleExport_query_ok _ _ _ _ hm (not_denied ha) hq]
  unfold writeCsv
  conv => zeta
  rw [header_written]
  simp only []
  obtain ⟨S1, g1, p1, p2, hlog, hret, hfin⟩ :=
    exportRows_good env (selected db r) 0 (csvLine csvHeader)
      { w := ((ResponseWriter.new env).Set "Content-Type" "text/csv; charset=utf-8").Set
          "Content-Disposition" "attachment; filename=\"submissions.csv\"",
        cw := { buf := csvLine csvHeader, err := none }, log := [], records := [csvHeader] }
      (fun j hj hn => by
        have := hs j ⟨hj, fun j' hj' => by simpa using hn j' hj'⟩
        simpa using this)
      (Good_header env)
  unfold selected at p2 hlog hret hfin g1
  unfold delivered selected
  generalize exportRows env 0 _ _ = res at g1 hlog hret hfin ⊢
  obtain ⟨st, flag⟩ := res
  simp only [] at g1 hlog hret hfin
  have hS1 : S1 ≠ [] := by
    intro h1
    rw [h1] at p1
    exact csvLine_ne_nil _ (List.prefix_nil.mp p1)
  cases flag with
  | false =>
    have herr := (hret rfl).1
    refine ⟨g1.status_err herr, ?_, ?_, fun h1 => absurd h1 (hret rfl).2, fun hu => ?_⟩
    · exact g1.body_pre.trans (by rw [csvText_cons]; exact p2)
    · intro l hl
      rcases hlog l hl with h1 | ⟨e, h1⟩
      · simp at h1
      · exact ⟨e, Or.inr (Or.inl h1)⟩
    · exact absurd (g1.unlimited hu).2 herr
  | true =>
    simp only []
    have hf := Flush_good g1
    have hfe := Flush_err st.cw st.w
    generalize st.cw.Flush st.w = res2 at hf hfe ⊢
    obtain ⟨cw2, w4⟩ := res2
    simp only [] at hf hfe ⊢
    have hdone : cw2.err = none → w4.body = S1 := by
      intro he
      have h1 := hf.1.stream he
      rwa [hf.2 he, List.append_nil] at h1
    refine ⟨?_, ?_, ?_, fun hl => ?_, fun hu => ?_⟩
    · by_cases he : cw2.err = none
      · have h1 := hdone he
        rcases hf.1.status with h2 | h2
        · rw [hf.1.body_nil h2] at h1
          exact absurd h1.symm hS1
        · exact h2
      · exact hf.1.status_err he
    · exact hf.1.body_pre.trans (by rw [csvText_cons]; exact p2)
    · intro l hl
      rcases List.mem_append.mp hl with h1 | h1
      · rcases hlog l h1 with h2 | ⟨e, h2⟩
        · simp at h2
        · exact ⟨e, Or.inr (Or.inl h2)⟩
      · cases he : cw2.err with
        | none => simp [he] at h1
        | some e =>
          simp only [he, List.mem_singleton] at h1
          exact ⟨e, Or.inr (Or.inr h1)⟩
    · have he : cw2.err = none := by
        cases he : cw2.err with
        | none => rfl
        | some e => simp [he] at hl
      obtain ⟨_, _, tl, _, h4, h5, h6⟩ := hfin (hfe he)
      rw [hdone he, h4, csvText_cons]
      cases hn : env.nextErr with
      | none => simp only []; rw [h5 hn]
      | some n =>
        simp only []
        rw [h6 n hn (Nat.zero_le n), Nat.sub_zero]
    · have he := (hf.1.unlimited hu).2
      obtain ⟨_, h2, tl, h3, h4, h5, _⟩ := hfin (hfe he)
      refine ⟨?_, ?_, tl, ?_, h5⟩
      · rw [hdone he, h4, h3]
        simp [csvText_cons, csvText]
      · simp [h2, he]
      · rw [h3]; rfl

/-! ## Lemmas: `http.Error` -/

theorem Write_sent (w : ResponseWriter) (p : Bytes) (h : w.status ≠ none) :
    (w.Write p).1.sent = w.sent := by
  unfold ResponseWriter.Write ResponseWriter.WriteHeader
  cases hs : w.status with
  | none => exact absurd hs h
  | some c =>
    simp only []
    split
    · rfl
    · split <;> rfl

theorem httpError_status (w : ResponseWriter) (msg : String) (code : Nat)
    (h : w.status = none) : (httpError w msg code).status = some code := by
  unfold httpError
  simp only [Write_status, WriteHeader_status]
  simp [ResponseWriter.Set, ResponseWriter.Del, h]

theorem httpError_body (w : ResponseWriter) (msg : String) (code : Nat)
    (h : w.room = none) : (httpError w msg code).body = w.body ++ utf8 (msg ++ "\n") := by
  unfold httpError
  simp only []
  have hb := Write_body
    ((((w.Del "Content-Length").Set "Content-Type" "text/plain; charset=utf-8").Set
      "X-Content-Type-Options" "nosniff").WriteHeader code) (utf8 (msg ++ "\n"))
  have hr := Write_room_none
    ((((w.Del "Content-Length").Set "Content-Type" "text/plain; charset=utf-8").Set
      "X-Content-Type-Options" "nosniff").WriteHeader code) (utf8 (msg ++ "\n"))
    (by rw [WriteHeader_room]; exact h)
  rw [hb.1, hb.2.2.1 hr.1, List.take_length, WriteHeader_body]
  rfl

/-- On a response on which nothing was sent, a header field set before
`http.Error` goes out with the status line unless `http.Error` replaces it. -/
theorem httpError_sent (w : ResponseWriter) (msg : String) (code : Nat) (k v : String)
    (h : w.status = none) (hk1 : k ≠ "Content-Length") (hk2 : k ≠ "Content-Type")
    (hk3 : k ≠ "X-Content-Type-Options") (hm : (k, v) ∈ w.header) :
    (k, v) ∈ (httpError w msg code).sent := by
  unfold httpError
  simp only []
  rw [Write_sent _ _ (by rw [WriteHeader_status]; simp)]
  unfold ResponseWriter.WriteHeader
  simp only [ResponseWriter.Set, ResponseWriter.Del, h]
  simp [hm, hk1, hk2, hk3]

theorem new_status (env : Env) : (ResponseWriter.new env).status = none := rfl

/-! ## Lemmas: `handleSubmit` -/

theorem insert_ok {db db1 : Store} {env : Env} {fn ln em : String} {id : Int}
    (h : db.insert env fn ln em = .ok (db1, id)) :
    id = db.nextId ∧ db1.rows = db.rows ++ [⟨id, fn, ln, em, 0, env.now⟩] ∧ db1.seq = id := by
  unfold Store.insert at h
  split at h
  · cases h
  · split at h
    · cases h
    · injection h with h
      injection h with h1 h2
      subst h1 h2
      exact ⟨rfl, rfl, rfl⟩

/-- The four ways `handleSubmit` can end. -/
theorem handleSubmit_cases (db : Store) (env : Env) (r : Request) :
    (r.method ≠ "POST" ∧
      handleSubmit db env r =
        { w := httpError (ResponseWriter.new env) "method not allowed" 405, db := db,
          log := [], calls := [], records := [] }) ∨
    (r.method = "POST" ∧ r.body = none ∧
      handleSubmit db env r =
        { w := httpError (ResponseWriter.new env) "invalid JSON body" 400, db := db,
          log := [], calls := [], records := [] }) ∨
    (∃ inp, r.method = "POST" ∧ r.body = some inp ∧
      (inp.FirstName = "" ∨ inp.LastName = "" ∨ inp.Email = "") ∧
      handleSubmit db env r =
        { w := httpError (ResponseWriter.new env)
            "first_name, last_name, and email are required" 400,
          db := db, log := [], calls := [], records := [] }) ∨
    (∃ inp e, r.method = "POST" ∧ r.body = some inp ∧
      ¬(inp.FirstName = "" ∨ inp.LastName = "" ∨ inp.Email = "") ∧
      db.insert env inp.FirstName inp.LastName inp.Email = .error e ∧
      handleSubmit db env r =
        { w := httpError (ResponseWriter.new env) "failed to save submission" 500, db := db,
          log := ["insert error: " ++ e],
          calls := [.exec inp.FirstName inp.LastName inp.Email], records := [] }) ∨
    (∃ inp db1 id, r.method = "POST" ∧ r.body = some inp ∧
      ¬(inp.FirstName = "" ∨ inp.LastName = "" ∨ inp.Email = "") ∧
      db.insert env inp.FirstName inp.LastName inp.Email = .ok (db1, id) ∧
      handleSubmit db env r =
        { w := ((((ResponseWriter.new env).Set "Content-Type" "application/json").WriteHeader
                  201).Write (env.jsonEncode (submitResp id inp) ++ [10])).1,
          db := db1, log := [],
          calls := [.exec inp.FirstName inp.LastName inp.Email], records := [] }) := by
  unfold handleSubmit
  conv => zeta
  by_cases hm : r.method = "POST"
  · right
    rw [if_neg (not_not.mpr hm)]
    cases hb : r.body with
    | none => exact Or.inl ⟨hm, rfl, rfl⟩
    | some inp =>
      right
      simp only []
      by_cases he : inp.FirstName = "" ∨ inp.LastName = "" ∨ inp.Email = ""
      · left
        exact ⟨inp, hm, rfl, he, by rw [if_pos he]⟩
      · right
        rw [if_neg he]
        cases hi : db.insert env inp.FirstName inp.LastName inp.Email with
        | error e => exact Or.inl ⟨inp, e, hm, rfl, he, hi, rfl⟩
        | ok res =>
          obtain ⟨db1, id⟩ := res
          exact Or.inr ⟨inp, db1, id, hm, rfl, he, hi, rfl⟩
  · left
    exact ⟨hm, by rw [if_pos hm]⟩

/-! ## Lemmas: the gate of `handleExport` and its use of the table -/

theorem handleExport_not_get (exportPassword : String) (db : Store) (env : Env) (r : Request)
    (hm : r.method ≠ "GET") :
    handleExport exportPassword db env r =
      { w := httpError (ResponseWriter.new env) "method not allowed" 405, db := db,
        log := [], calls := [], records := [] } := by
  unfold handleExport
  conv => zeta
  rw [if_pos hm]

theorem handleExport_denied (exportPassword : String) (db : Store) (env : Env) (r : Request)
    (hm : r.method = "GET")
    (hd : exportPassword ≠ "" ∧ (Values.Get r.query "password" = "" ∨
      Values.Get r.query "password" ≠ exportPassword)) :
    handleExport exportPassword db env r =
      { w := httpError ((ResponseWriter.new env).Set "WWW-Authenticate"
                "Basic realm=\"Export Protected\"") "Unauthorized" 401,
        db := db, log := [], calls := [], records := [] } := by
  unfold handleExport
  conv => zeta
  rw [if_neg (not_not.mpr hm), if_pos hd]

theorem handleExport_query_failed (exportPassword : String) (db : Store) (env : Env)
    (r : Request) (e : String) (hm : r.method = "GET")
    (hd : ¬(exportPassword ≠ "" ∧ (Values.Get r.query "password" = "" ∨
      Values.Get r.query "password" ≠ exportPassword)))
    (hq : env.queryErr = some e) :
    handleExport exportPassword db env r =
      { w := httpError (ResponseWriter.new env) "failed to query data" 500, db := db,
        log := ["select error: " ++ e],
        calls := [.query (exportFilter (Values.Get r.query "exported"))], records := [] } := by
  unfold handleExport
  conv => zeta
  rw [if_neg (not_not.mpr hm), if_neg hd]
  simp only [hq]

/-- Past the gate, `handleExport` sends exactly one statement, the select. -/
theorem handleExport_calls (exportPassword : String) (db : Store) (env : Env) (r : Request)
    (hm : r.method = "GET")
    (hd : ¬(exportPassword ≠ "" ∧ (Values.Get r.query "password" = "" ∨
      Values.Get r.query "password" ≠ exportPassword))) :
    (handleExport exportPassword db env r).calls =
      [.query (exportFilter (Values.Get r.query "exported"))] := by
  cases hq : env.queryErr with
  | some e => rw [handleExport_query_failed _ _ _ _ e hm hd hq]
  | none =>
    rw [handleExport_query_ok _ _ _ _ hm hd hq]
    unfold writeCsv
    conv => zeta
    generalize csvWrite BufWriter.new _ csvHeader = res
    obtain ⟨cw1, w3, e⟩ := res
    cases e with
    | some e => rfl
    | none =>
      simp only []
      generalize exportRows env 0 _ _ = res
      obtain ⟨st, flag⟩ := res
      cases flag <;> rfl

/-- No path of `handleExport` changes the table. -/
theorem handleExport_db (exportPassword : String) (db : Store) (env : Env) (r : Request) :
    (handleExport exportPassword db env r).db = db := by
  by_cases hm : r.method = "GET"
  · by_cases hd : exportPassword ≠ "" ∧ (Values.Get r.query "password" = "" ∨
        Values.Get r.query "password" ≠ exportPassword)
    · rw [handleExport_denied _ _ _ _ hm hd]
    · cases hq : env.queryErr with
      | some e => rw [handleExport_query_failed _ _ _ _ e hm hd hq]
      | none =>
        rw [handleExport_query_ok _ _ _ _ hm hd hq]
        unfold writeCsv
        conv => zeta
        generalize csvWrite BufWriter.new _ csvHeader = res
        obtain ⟨cw1, w3, e⟩ := res
        cases e with
        | some e => rfl
        | none =>
          simp only []
          generalize exportRows env 0 _ _ = res
          obtain ⟨st, flag⟩ := res
          cases flag <;> rfl
  · rw [handleExport_not_get _ _ _ _ hm]

theorem handleSubmit_db (db : Store) (env : Env) (r : Request) :
    (handleSubmit db env r).db = db ∨
    ∃ inp id, r.body = some inp ∧
      ¬(inp.FirstName = "" ∨ inp.LastName = "" ∨ inp.Email = "") ∧
      (handleSubmit db env r).w.status = some 201 ∧
      (handleSubmit db env r).db.rows =
        db.rows ++ [⟨id, inp.FirstName, inp.LastName, inp.Email, 0, env.now⟩] := by
  rcases handleSubmit_cases db env r with ⟨_, h⟩ | ⟨_, _, h⟩ | ⟨_, _, _, _, h⟩ |
      ⟨_, _, _, _, _, _, h⟩ | ⟨inp, db1, id, _, hb, hne, hi, h⟩
  · rw [h]; exact Or.inl rfl
  · rw [h]; exact Or.inl rfl
  · rw [h]; exact Or.inl rfl
  · rw [h]; exact Or.inl rfl
  · right
    refine ⟨inp, id, hb, hne, ?_, ?_⟩
    · rw [h]
      simp only [Write_status, WriteHeader_status]
      rfl
    · rw [h]
      exact (insert_ok hi).2.1

/-! ## Lemmas: a scan that fails while everything is still buffered -/

/-- The row loop when the scan of row `k` fails, the rows before it are read
and their records still fit into the buffer: `http.Error` is called on the
untouched response. -/
theorem exportRows_scan_small (env : Env) (e : String) (k : Nat) :
    ∀ (rows : List Submission) (i : Nat) (st : ExportState), st.cw.err = none →
      st.cw.buf.length + (csvText ((rows.take k).map record)).length ≤ defaultBufSize →
      k < rows.length → (∀ j, j < k → env.scanErr (i + j) = none) →
      env.scanErr (i + k) = some e → (∀ j, j ≤ k → env.nextErr ≠ some (i + j)) →
      exportRows env i rows st =
        ({ w := httpError st.w "failed to read data" 500,
           cw := { buf := st.cw.buf ++ csvText ((rows.take k).map record), err := none },
           log := st.log ++ ["scan error: " ++ e],
           records := st.records ++ (rows.take k).map record }, false) := by
  induction k with
  | zero =>
    intro rows i st he _ hk _ hs hn
    cases rows with
    | nil => simp at hk
    | cons r rs =>
      unfold exportRows
      rw [if_neg (by simpa using hn 0 (Nat.le_refl 0))]
      simp only [Nat.add_zero] at hs
      simp only [hs]
      cases st with
      | mk w cw log records =>
        cases cw with
        | mk buf err =>
          simp only [] at he
          simp [csvText, he]
  | succ k ih =>
    intro rows i st he hl hk hsb hs hn
    cases rows with
    | nil => simp at hk
    | cons r rs =>
      simp only [List.take_succ_cons, List.map_cons, csvText_cons, List.length_append] at hl
      unfold exportRows
      rw [if_neg (by simpa using hn 0 (Nat.zero_le _))]
      have h0 : env.scanErr i = none := by simpa using hsb 0 (Nat.succ_pos k)
      simp only [h0]
      rw [csvWrite_small st.cw st.w (record r) he (by omega)]
      simp only []
      rw [ih rs (i + 1) _ rfl (by simp only [List.length_append]; omega)
        (by simpa using hk)
        (fun j hj => by
          have := hsb (j + 1) (by omega)
          rwa [show i + (j + 1) = i + 1 + j by omega] at this)
        (by rwa [show i + (k + 1) = i + 1 + k by omega] at hs)
        (fun j hj => by
          have := hn (j + 1) (by omega)
          rwa [show i + (j + 1) = i + 1 + j by omega] at this)]
      simp [csvText_cons]

/-- An export in which the scan of row `k` fails while the header and the
records before it still sit in the buffer: the answer is that of `http.Error`
on a response on which nothing was sent. -/
theorem handleExport_scan_small (exportPassword : String) (db : Store) (env : Env)
    (r : Request) (e : String) (k : Nat) (hm : r.method = "GET")
    (ha : Authorised exportPassword r) (hq : env.queryErr = none)
    (hk : k < (selected db r).length) (hsb : ∀ j, j < k → env.scanErr j = none)
    (hs : env.scanErr k = some e) (hn : ∀ j, j ≤ k → env.nextErr ≠ some j)
    (hfit : (csvText (csvHeader :: ((selected db r).take k).map record)).length
      ≤ defaultBufSize) :
    handleExport exportPassword db env r =
      { w := httpError
          (((ResponseWriter.new env).Set "Content-Type" "text/csv; charset=utf-8").Set
            "Content-Disposition" "attachment; filename=\"submissions.csv\"")
          "failed to read data" 500,
        db := db, log := ["scan error: " ++ e],
        calls := [.query (exportFilter (Values.Get r.query "exported"))],
        records := csvHeader :: ((selected db r).take k).map record } := by
  rw [csvText_cons, List.length_append] at hfit
  unfold selected at hk hfit ⊢
  rw [handleExport_query_ok _ _ _ _ hm (not_denied ha) hq]
  unfold writeCsv
  conv => zeta
  rw [csvWrite_small BufWriter.new _ csvHeader rfl
    (by simp only [BufWriter.new, List.length_nil]; omega)]
  simp only []
  rw [exportRows_scan_small env e k _ 0 _ rfl
    (by simp only [BufWriter.new, List.nil_append]; omega) hk
    (fun j hj => by simpa using hsb j hj) (by simpa using hs)
    (fun j hj => by simpa using hn j hj)]
  simp [BufWriter.new]

/-! ## Lemmas: the text of a store error does not reach the response -/

theorem exportRows_indep (env1 env2 : Env) (hn : env1.nextErr = env2.nextErr)
    (hs : ∀ j, (env1.scanErr j).isSome = (env2.scanErr j).isSome) (rows : List Submission) :
    ∀ (i : Nat) (st1 st2 : ExportState), st1.w = st2.w → st1.cw = st2.cw →
      st1.records = st2.records →
      (exportRows env1 i rows st1).1.w = (exportRows env2 i rows st2).1.w ∧
      (exportRows env1 i rows st1).1.cw = (exportRows env2 i rows st2).1.cw ∧
      (exportRows env1 i rows st1).1.records = (exportRows env2 i rows st2).1.records ∧
      (exportRows env1 i rows st1).2 = (exportRows env2 i rows st2).2 := by
  induction rows with
  | nil =>
    intro i st1 st2 h1 h2 h3
    simp [exportRows, h1, h2, h3]
  | cons r rs ih =>
    intro i st1 st2 h1 h2 h3
    unfold exportRows
    rw [← hn]
    split
    · exact ⟨h1, h2, h3, rfl⟩
    · have hsi := hs i
      cases hs1 : env1.scanErr i with
      | some e1 =>
        cases hs2 : env2.scanErr i with
        | none => simp [hs1, hs2] at hsi
        | some e2 =>
          simp only []
          exact ⟨by rw [h1], h2, h3, trivial⟩
      | none =>
        cases hs2 : env2.scanErr i with
        | some e2 => simp [hs1, hs2] at hsi
        | none =>
          simp only []
          rw [← h1, ← h2]
          generalize csvWrite st1.cw st1.w (record r) = res
          obtain ⟨cw1, w1, e⟩ := res
          cases e with
          | some e => exact ⟨rfl, rfl, h3, rfl⟩
          | none =>
            simp only []
            exact ih (i + 1) _ _ rfl rfl (by simp only []; rw [h3])

theorem new_indep (env1 env2 : Env) (h : SameFailures env1 env2) :
    ResponseWriter.new env1 = ResponseWriter.new env2 := by
  unfold ResponseWriter.new
  rw [h.2.1, h.2.2.1]

/-- The response, the table and the records of `handleExport` are the same
whatever the text of the store errors. -/
theorem handleExport_indep (exportPassword : String) (db : Store) (env1 env2 : Env)
    (r : Request) (h : SameFailures env1 env2) :
    (handleExport exportPassword db env1 r).w = (handleExport exportPassword db env2 r).w ∧
    (handleExport exportPassword db env1 r).records =
      (handleExport exportPassword db env2 r).records := by
  have hnew := new_indep env1 env2 h
  by_cases hm : r.method = "GET"
  · by_cases hd : exportPassword ≠ "" ∧ (Values.Get r.query "password" = "" ∨
        Values.Get r.query "password" ≠ exportPassword)
    · rw [handleExport_denied _ _ _ _ hm hd, handleExport_denied _ _ _ _ hm hd, hnew]
      exact ⟨rfl, rfl⟩
    · have hq := h.2.2.2.2.2.2.1
      cases hq1 : env1.queryErr with
      | some e1 =>
        cases hq2 : env2.queryErr with
        | none => simp [hq1, hq2] at hq
        | some e2 =>
          rw [handleExport_query_failed _ _ _ _ e1 hm hd hq1,
            handleExport_query_failed _ _ _ _ e2 hm hd hq2, hnew]
          exact ⟨rfl, rfl⟩
      | none =>
        cases hq2 : env2.queryErr with
        | some e2 => simp [hq1, hq2] at hq
        | none =>
          rw [handleExport_query_ok _ _ _ _ hm hd hq1, handleExport_query_ok _ _ _ _ hm hd hq2,
            hnew]
          unfold writeCsv
          conv => zeta
          generalize csvWrite BufWriter.new _ csvHeader = res
          obtain ⟨cw1, w3, e⟩ := res
          cases e with
          | some e => exact ⟨rfl, rfl⟩
          | none =>
            simp only []
            have hr := exportRows_indep env1 env2 h.2.2.2.2.1 h.2.2.2.2.2.2.2
              (db.select (exportFilter (Values.Get r.query "exported"))) 0
              { w := w3, cw := cw1, log := [], records := [csvHeader] }
              { w := w3, cw := cw1, log := [], records := [csvHeader] } rfl rfl rfl
            generalize exportRows env1 0 _ _ = res1 at hr
            generalize exportRows env2 0 _ _ = res2 at hr
            obtain ⟨st1, f1⟩ := res1
            obtain ⟨st2, f2⟩ := res2
            simp only [] at hr
            obtain ⟨hr1, hr2, hr3, hr4⟩ := hr
            subst hr4
            cases f1 with
            | false => exact ⟨hr1, hr3⟩
            | true =>
              simp only []
              rw [hr1, hr2]
              exact ⟨rfl, hr3⟩
  · rw [handleExport_not_get _ _ _ _ hm, handleExport_not_get _ _ _ _ hm, hnew]
    exact ⟨rfl, rfl⟩

theorem handleSubmit_not_post (db : Store) (env : Env) (r : Request) (hm : r.method ≠ "POST") :
    handleSubmit db env r =
      { w := httpError (ResponseWriter.new env) "method not allowed" 405, db := db,
        log := [], calls := [], records := [] } := by
  unfold handleSubmit
  conv => zeta
  rw [if_pos hm]

theorem handleSubmit_bad_body (db : Store) (env : Env) (r : Request) (hm : r.method = "POST")
    (hb : r.body = none) :
    handleSubmit db env r =
      { w := httpError (ResponseWriter.new env) "invalid JSON body" 400, db := db,
        log := [], calls := [], records := [] } := by
  unfold handleSubmit
  conv => zeta
  rw [if_neg (not_not.mpr hm)]
  simp only [hb]

theorem handleSubmit_missing (db : Store) (env : Env) (r : Request) (inp : submissionInput)
    (hm : r.method = "POST") (hb : r.body = some inp)
    (he : inp.FirstName = "" ∨ inp.LastName = "" ∨ inp.Email = "") :
    handleSubmit db env r =
      { w := httpError (ResponseWriter.new env)
          "first_name, last_name, and email are required" 400,
        db := db, log := [], calls := [], records := [] } := by
  unfold handleSubmit
  conv => zeta
  rw [if_neg (not_not.mpr hm)]
  simp only [hb]
  rw [if_pos he]

theorem handleSubmit_insert_failed (db : Store) (env : Env) (r : Request)
    (inp : submissionInput) (e : String) (hm : r.method = "POST") (hb : r.body = some inp)
    (he : ¬(inp.FirstName = "" ∨ inp.LastName = "" ∨ inp.Email = ""))
    (hi : db.insert env inp.FirstName inp.LastName inp.Email = .error e) :
    handleSubmit db env r =
      { w := httpError (ResponseWriter.new env) "failed to save submission" 500, db := db,
        log := ["insert error: " ++ e],
        calls := [.exec inp.FirstName inp.LastName inp.Email], records := [] } := by
  unfold handleSubmit
  conv => zeta
  rw [if_neg (not_not.mpr hm)]
  simp only [hb]
  rw [if_neg he]
  simp only [hi]

theorem handleSubmit_created (db : Store) (env : Env) (r : Request)
    (inp : submissionInput) (db1 : Store) (id : Int) (hm : r.method = "POST")
    (hb : r.body = some inp)
    (he : ¬(inp.FirstName = "" ∨ inp.LastName = "" ∨ inp.Email = ""))
    (hi : db.insert env inp.FirstName inp.LastName inp.Email = .ok (db1, id)) :
    handleSubmit db env r =
      { w := ((((ResponseWriter.new env).Set "Content-Type" "application/json").WriteHeader
                201).Write (env.jsonEncode (submitResp id inp) ++ [10])).1,
        db := db1, log := [],
        calls := [.exec inp.FirstName inp.LastName inp.Email], records := [] } := by
  unfold handleSubmit
  conv => zeta
  rw [if_neg (not_not.mpr hm)]
  simp only [hb]
  rw [if_neg he]
  simp only [hi]

theorem insert_indep (db : Store) (env1 env2 : Env) (fn ln em : String)
    (h : SameFailures env1 env2) :
    (∀ x, db.insert env1 fn ln em = .ok x → db.insert env2 fn ln em = .ok x) ∧
    (∀ e1, db.insert env1 fn ln em = .error e1 → ∃ e2, db.insert env2 fn ln em = .error e2) := by
  have hi := h.2.2.2.2.2.1
  unfold Store.insert
  cases hi1 : env1.insertErr with
  | some e1 =>
    cases hi2 : env2.insertErr with
    | none => simp [hi1, hi2] at hi
    | some e2 => simp
  | none =>
    cases hi2 : env2.insertErr with
    | some e2 => simp [hi1, hi2] at hi
    | none =>
      simp only []
      rw [h.1]
      exact ⟨fun x hx => hx, fun e1 he1 => ⟨e1, he1⟩⟩

/-- The response and the table of `handleSubmit` are the same whatever the
text of the insert error. -/
theorem handleSubmit_indep (db : Store) (env1 env2 : Env) (r : Request)
    (h : SameFailures env1 env2) :
    (handleSubmit db env1 r).w = (handleSubmit db env2 r).w ∧
    (handleSubmit db env1 r).db = (handleSubmit db env2 r).db := by
  have hnew := new_indep env1 env2 h
  rcases handleSubmit_cases db env1 r with ⟨hm, h1⟩ | ⟨hm, hb, h1⟩ | ⟨inp, hm, hb, he, h1⟩ |
      ⟨inp, e, hm, hb, he, hi, h1⟩ | ⟨inp, db1, id, hm, hb, he, hi, h1⟩
  · rw [h1, handleSubmit_not_post db env2 r hm, hnew]
    exact ⟨rfl, rfl⟩
  · rw [h1, handleSubmit_bad_body db env2 r hm hb, hnew]
    exact ⟨rfl, rfl⟩
  · rw [h1, handleSubmit_missing db env2 r inp hm hb he, hnew]
    exact ⟨rfl, rfl⟩
  · obtain ⟨e2, hi2⟩ := (insert_indep db env1 env2 _ _ _ h).2 e hi
    rw [h1, handleSubmit_insert_failed db env2 r inp e2 hm hb he hi2, hnew]
    exact ⟨rfl, rfl⟩
  · have hi2 := (insert_indep db env1 env2 _ _ _ h).1 _ hi
    rw [h1, handleSubmit_created db env2 r inp db1 id hm hb he hi2, hnew, h.2.2.2.1]
    exact ⟨rfl, rfl⟩

/-! ## Lemmas: the invariant of the table -/

theorem handleSubmit_inv (db : Store) (env : Env) (r : Request) (h : StoreInv db) :
    StoreInv (handleSubmit db env r).db := by
  rcases handleSubmit_db db env r with h1 | ⟨inp, id, _, hne, _, hrows⟩
  · rw [h1]; exact h
  · intro row hrow
    rw [hrows] at hrow
    rcases List.mem_append.mp hrow with h2 | h2
    · exact h row h2
    · rw [List.mem_singleton] at h2
      subst h2
      exact ⟨fun h3 => hne (Or.inl h3), fun h3 => hne (Or.inr (Or.inl h3)),
        fun h3 => hne (Or.inr (Or.inr h3)), rfl⟩

theorem serve_inv (exportPassword : String) (db : Store) (env : Env) (r : Request)
    (h : StoreInv db) : StoreInv (serve exportPassword db env r).db := by
  unfold serve
  split
  · exact handleSubmit_inv db env r h
  · split
    · rw [handleExport_db]; exact h
    · exact h

theorem run_inv (exportPassword : String) (reqs : List (Request × Env)) :
    ∀ db, StoreInv db → StoreInv (run exportPassword db reqs) := by
  induction reqs with
  | nil => intro db h; exact h
  | cons q rest ih =>
    intro db h
    obtain ⟨r, env⟩ := q
    exact ih _ (serve_inv exportPassword db env r h)

/-! ## Lemmas: what a failed scan leaves in the response -/

/-- Status, log and body after a scan failure that happens while the header and
the records before it still sit in the buffer. -/
theorem handleExport_scan_small_response (exportPassword : String) (db : Store) (env : Env)
    (r : Request) (e : String) (k : Nat) (hm : r.method = "GET")
    (ha : Authorised exportPassword r) (hq : env.queryErr = none)
    (hk : k < (selected db r).length) (hsb : ∀ j, j < k → env.scanErr j = none)
    (hs : env.scanErr k = some e) (hn : ∀ j, j ≤ k → env.nextErr ≠ some j)
    (hfit : (csvText (csvHeader :: ((selected db r).take k).map record)).length
      ≤ defaultBufSize) :
    (handleExport exportPassword db env r).w.status = some 500 ∧
    (handleExport exportPassword db env r).log = ["scan error: " ++ e] ∧
    (env.room = none →
      (handleExport exportPassword db env r).w.body = utf8 ("failed to read data" ++ "\n")) := by
  rw [handleExport_scan_small exportPassword db env r e k hm ha hq hk hsb hs hn hfit]
  exact ⟨httpError_status _ _ _ rfl, rfl, fun hr => by rw [httpError_body _ _ _ hr]; rfl⟩

theorem handleExport_query_failed_response (exportPassword : String) (db : Store) (env : Env)
    (r : Request) (e : String) (hm : r.method = "GET") (ha : Authorised exportPassword r)
    (hq : env.queryErr = some e) :
    (handleExport exportPassword db env r).w.status = some 500 ∧
    (handleExport exportPassword db env r).records = [] ∧
    (handleExport exportPassword db env r).log = ["select error: " ++ e] ∧
    (env.room = none →
      (handleExport exportPassword db env r).w.body =
        utf8 ("failed to query data" ++ "\n")) := by
  rw [handleExport_query_failed exportPassword db env r e hm (not_denied ha) hq]
  exact ⟨httpError_status _ _ _ rfl, rfl, rfl, fun hr => by rw [httpError_body _ _ _ hr]; rfl⟩

/-! ## Lemmas: a scan that fails at any point of the export -/

theorem httpError_status_sent (w : ResponseWriter) (msg : String) (code : Nat) (c : Nat)
    (h : w.status = some c) : (httpError w msg code).status = some c := by
  unfold httpError
  simp only [Write_status, WriteHeader_status]
  simp [ResponseWriter.Set, ResponseWriter.Del, h]

/-- The body after `http.Error` is the body before it followed by a leading part
of the message line. -/
theorem httpError_body_any (w : ResponseWriter) (msg : String) (code : Nat) :
    ∃ t, t <+: utf8 (msg ++ "\n") ∧ (httpError w msg code).body = w.body ++ t := by
  unfold httpError
  simp only []
  have hb := Write_body
    ((((w.Del "Content-Length").Set "Content-Type" "text/plain; charset=utf-8").Set
      "X-Content-Type-Options" "nosniff").WriteHeader code) (utf8 (msg ++ "\n"))
  have hb1 := hb.1
  rw [WriteHeader_body] at hb1
  exact ⟨_, List.take_prefix _ _, hb1⟩

theorem csvText_take (k : Nat) (rows : List Submission) :
    csvText (csvHeader :: (rows.take k).map record) <+:
      csvText (csvHeader :: rows.map record) := by
  rw [csvText_cons, csvText_cons]
  refine (List.prefix_append_right_inj _).mpr ?_
  conv => rhs; rw [← List.take_append_drop k rows]
  rw [List.map_append]
  unfold csvText
  rw [List.flatMap_append]
  exact List.prefix_append _ _

/-- When a scan of a delivered row fails, some delivered row is the first whose
scan fails. -/
theorem first_failure (env : Env) (rows : List Submission)
    (h : ¬DeliveredScansOk env rows) : ∃ k e, FirstScanFailure env rows k e := by
  classical
  unfold DeliveredScansOk at h
  push_neg at h
  obtain ⟨k, hk, hne⟩ := h
  have hex : ∃ j, env.scanErr j ≠ none := ⟨k, hne⟩
  have hle : Nat.find hex ≤ k := Nat.find_min' hex hne
  have hspec := Nat.find_spec hex
  obtain ⟨e, he⟩ := Option.ne_none_iff_exists'.mp hspec
  refine ⟨Nat.find hex, e, ⟨Nat.lt_of_le_of_lt hle hk.1, fun j hj => hk.2 j (Nat.le_trans hj hle)⟩,
    fun j hj => ?_, he⟩
  by_contra hj2
  exact Nat.find_min hex hj hj2

/-- The row loop up to the first failing scan: either a CSV write fails before
the scan is reached, or the scan is reached with a writer that kept no error
and `http.Error` is called on the response as it stands. -/
theorem exportRows_reach {unl : Prop} (env : Env) (e : String) (k : Nat) :
    ∀ (rows : List Submission) (i : Nat) (S : Bytes) (st : ExportState),
      Good unl S st.cw st.w → Whole st.cw st.w → st.cw.err = none →
      k < rows.length → (∀ j, j < k → env.scanErr (i + j) = none) →
      env.scanErr (i + k) = some e → (∀ j, j ≤ k → env.nextErr ≠ some (i + j)) →
      ((exportRows env i rows st).2 = false ∧ (exportRows env i rows st).1.cw.err ≠ none ∧
        (∃ e1, (exportRows env i rows st).1.log = st.log ++ ["csv write error: " ++ e1]) ∧
        ∃ S1, Good unl S1 (exportRows env i rows st).1.cw (exportRows env i rows st).1.w ∧
          S1 <+: S ++ csvText ((rows.take k).map record)) ∨
      (∃ b0 w0, Good unl (S ++ csvText ((rows.take k).map record)) b0 w0 ∧ Whole b0 w0 ∧
        b0.err = none ∧
        exportRows env i rows st =
          ({ w := httpError w0 "failed to read data" 500, cw := b0,
             log := st.log ++ ["scan error: " ++ e],
             records := st.records ++ (rows.take k).map record }, false)) := by
  induction k with
  | zero =>
    intro rows i S st h hwh he hk _ hs hn
    cases rows with
    | nil => simp at hk
    | cons r rs =>
      right
      refine ⟨st.cw, st.w, by simpa [csvText] using h, hwh, he, ?_⟩
      unfold exportRows
      rw [if_neg (by simpa using hn 0 (Nat.le_refl 0))]
      simp only [Nat.add_zero] at hs
      simp only [hs]
      cases st
      simp
  | succ k ih =>
    intro rows i S st h hwh _ hk hsb hs hn
    cases rows with
    | nil => simp at hk
    | cons r rs =>
      unfold exportRows
      rw [if_neg (by simpa using hn 0 (Nat.zero_le _))]
      have h0 : env.scanErr i = none := by simpa using hsb 0 (Nat.succ_pos k)
      simp only [h0]
      have hw := csvWrite_good h (record r)
      have herr := csvWrite_err h (record r)
      have hwh1 := csvWrite_whole st.cw st.w (record r) hwh
      generalize csvWrite st.cw st.w (record r) = res at hw herr hwh1
      obtain ⟨cw1, w1, e1⟩ := res
      simp only [] at hw herr hwh1
      have hpre : S ++ csvLine (record r) ++ csvText ((rs.take k).map record) =
          S ++ csvText (((r :: rs).take (k + 1)).map record) := by
        rw [List.take_succ_cons, List.map_cons, csvText_cons, List.append_assoc]
      cases e1 with
      | some e1 =>
        left
        simp only []
        refine ⟨trivial, by rw [← herr]; simp, ⟨e1, rfl⟩, S ++ csvLine (record r), hw.1, ?_⟩
        rw [← hpre]
        exact List.prefix_append _ _
      | none =>
        simp only []
        rcases ih rs (i + 1) (S ++ csvLine (record r))
            { st with cw := cw1, w := w1, records := st.records ++ [record r] } hw.1 hwh1
            herr.symm (by simpa using hk)
            (fun j hj => by
              have := hsb (j + 1) (by omega)
              rwa [show i + (j + 1) = i + 1 + j by omega] at this)
            (by rwa [show i + (k + 1) = i + 1 + k by omega] at hs)
            (fun j hj => by
              have := hn (j + 1) (by omega)
              rwa [show i + (j + 1) = i + 1 + j by omega] at this) with
          ⟨h1, h2, h3, S1, h4, h5⟩ | ⟨b0, w0, h1, h2, hb0, h3⟩
        · left
          refine ⟨h1, h2, h3, S1, h4, ?_⟩
          rw [← hpre]
          exact h5
        · right
          refine ⟨b0, w0, by rw [← hpre]; exact h1, h2, hb0, ?_⟩
          rw [h3]
          simp

/-- An export in which the scan of row `k` is the first to fail: either a CSV
write fails before (status 200, only CSV bytes in the body, the failure
logged), or the handler logs the scan error and calls `http.Error` on a
response that holds nothing but CSV bytes already passed on. -/
theorem handleExport_scan (exportPassword : String) (db : Store) (env : Env) (r : Request)
    (e : String) (k : Nat) (hm : r.method = "GET") (ha : Authorised exportPassword r)
    (hq : env.queryErr = none) (hf : FirstScanFailure env (selected db r) k e) :
    ((handleExport exportPassword db env r).w.status = some 200 ∧
      (handleExport exportPassword db env r).w.body <+:
        csvText (csvHeader :: ((selected db r).take k).map record) ∧
      (∃ e1, (handleExport exportPassword db env r).log = ["csv write error: " ++ e1]) ∧
      env.room ≠ none) ∨
    (∃ b0 w0, Good (env.room = none)
        (csvText (csvHeader :: ((selected db r).take k).map record)) b0 w0 ∧ Whole b0 w0 ∧
      b0.err = none ∧
      handleExport exportPassword db env r =
        { w := httpError w0 "failed to read data" 500, db := db,
          log := ["scan error: " ++ e],
          calls := [.query (exportFilter (Values.Get r.query "exported"))],
          records := csvHeader :: ((selected db r).take k).map record }) := by
  obtain ⟨⟨hk, hn⟩, hsb, hs⟩ := hf
  rw [handleExport_query_ok _ _ _ _ hm (not_denied ha) hq]
  unfold writeCsv
  conv => zeta
  rw [header_written]
  simp only []
  have key := exportRows_reach env e k (selected db r) 0 (csvLine csvHeader)
      { w := ((ResponseWriter.new env).Set "Content-Type" "text/csv; charset=utf-8").Set
          "Content-Disposition" "attachment; filename=\"submissions.csv\"",
        cw := { buf := csvLine csvHeader, err := none }, log := [], records := [csvHeader] }
      (Good_header env) (Whole_header env) rfl hk
      (fun j hj => by simpa using hsb j hj) (by simpa using hs)
      (fun j hj => by simpa using hn j hj)
  unfold selected at key ⊢
  rcases key with ⟨h1, h2, ⟨e1, h3⟩, S1, h4, h5⟩ | ⟨b0, w0, h1, h2, hb0, h3⟩
  · left
    generalize exportRows env 0 _ _ = res at h1 h2 h3 h4 ⊢
    obtain ⟨st, flag⟩ := res
    simp only [] at h1 h2 h3 h4
    subst h1
    simp only []
    refine ⟨h4.status_err h2, h4.body_pre.trans (by rw [csvText_cons]; exact h5),
      ⟨e1, by simpa using h3⟩, fun hu => h2 (h4.unlimited hu).2⟩
  · right
    refine ⟨b0, w0, by rw [csvText_cons]; exact h1, h2, hb0, ?_⟩
    rw [h3]
    simp

/-- What the response holds when the first failing scan is reached after more
bytes of CSV than the buffer takes: at least one full buffer has been passed
on, so the status line 200 is out and the body begins with the header. -/
theorem reached_late {unl : Prop} {S : Bytes} {b0 : BufWriter} {w0 : ResponseWriter}
    (hg : Good unl S b0 w0) (hw : Whole b0 w0) (he : b0.err = none)
    (hH : csvLine csvHeader <+: S) (hbig : defaultBufSize < S.length) :
    w0.status = some 200 ∧ csvLine csvHeader <+: w0.body := by
  have hst := hg.stream he
  have hle := hw.buf_le
  have hne : w0.body ≠ [] := by
    intro h0
    rw [h0, List.nil_append] at hst
    rw [← hst] at hbig
    omega
  have hlen : defaultBufSize ≤ w0.body.length := by
    rcases hw.big he with h0 | h0
    · exact absurd h0 hne
    · exact h0
  refine ⟨?_, List.prefix_of_prefix_length_le hH hg.body_pre
    (Nat.le_trans header_fits hlen)⟩
  rcases hg.status with h0 | h0
  · exact absurd (hg.body_nil h0) hne
  · exact h0

/-- A scan that fails after more bytes of CSV than the buffer takes, on a
connection that accepts every write: the status stays 200 and the message of
`http.Error` follows at least one full buffer of CSV. -/
theorem handleExport_scan_late (exportPassword : String) (db : Store) (env : Env)
    (r : Request) (e : String) (k : Nat) (hm : r.method = "GET")
    (ha : Authorised exportPassword r) (hq : env.queryErr = none) (hr : env.room = none)
    (hf : FirstScanFailure env (selected db r) k e)
    (hbig : defaultBufSize <
      (csvText (csvHeader :: ((selected db r).take k).map record)).length) :
    (handleExport exportPassword db env r).w.status = some 200 ∧
    (handleExport exportPassword db env r).log = ["scan error: " ++ e] ∧
    ∃ sent, sent <+: csvText (csvHeader :: ((selected db r).take k).map record) ∧
      defaultBufSize ≤ sent.length ∧
      (handleExport exportPassword db env r).w.body =
        sent ++ utf8 ("failed to read data" ++ "\n") := by
  rcases handleExport_scan exportPassword db env r e k hm ha hq hf with
    ⟨_, _, _, h4⟩ | ⟨b0, w0, hg, hw, he, heq⟩
  · exact absurd hr h4
  · have hl := reached_late hg hw he
      (by rw [csvText_cons]; exact List.prefix_append _ _) hbig
    rw [heq]
    refine ⟨httpError_status_sent _ _ _ _ hl.1, rfl, w0.body, hg.body_pre, ?_,
      httpError_body _ _ _ (hg.unlimited hr).1⟩
    rcases hw.big he with h0 | h0
    · rw [h0] at hl
      exact absurd (List.prefix_nil.mp hl.2) (csvLine_ne_nil _)
    · exact h0

/-- A scan that fails while the header is still buffered loses the header: the
body holds at most the message of `http.Error`. -/
theorem scan_buffered_loses_header (exportPassword : String) (db : Store) (env : Env)
    (r : Request) (hm : r.method = "GET") (ha : Authorised exportPassword r)
    (hq : env.queryErr = none) (hbuf : ScanFailsBuffered env (selected db r)) :
    ¬(csvLine csvHeader <+: (handleExport exportPassword db env r).w.body) := by
  obtain ⟨k, e, hf, hfit⟩ := hbuf
  rw [handleExport_scan_small exportPassword db env r e k hm ha hq hf.1.1 hf.2.1 hf.2.2
    hf.1.2 hfit]
  simp only []
  obtain ⟨t, ht, hbody⟩ := httpError_body_any
    (((ResponseWriter.new env).Set "Content-Type" "text/csv; charset=utf-8").Set
      "Content-Disposition" "attachment; filename=\"submissions.csv\"")
    "failed to read data" 500
  rw [hbody]
  intro h
  have h2 := ht.length_le
  have h4 : (csvLine csvHeader).length = 50 := by decide!
  have h5 : (utf8 ("failed to read data" ++ "\n")).length = 20 := by decide!
  have h6 : (csvLine csvHeader).length ≤ t.length := by
    have := h.length_le
    simpa [ResponseWriter.Set, ResponseWriter.new] using this
  omega

/-! ## The model on the scenario of the specification -/

/-- The export that follows the submission of the scenario, byte for byte. -/
theorem scenario_export_body :
    (handleExport "" (handleSubmit Store.empty quietEnv adaRequest).db quietEnv
      exportRequest).w.body =
    utf8 ("id,first_name,last_name,email,exported,created_at\n" ++
      "1,Ada,Lovelace,ada@example.com,0,2024-01-01 00:00:00\n") := by
  decide!

/-- Quoting of the CSV writer: a field is quoted when it holds a comma, a quote,
a line break or starts with a space; a quote inside is doubled. -/
theorem csvLine_quoting :
    csvLine ["a,b", "say \"hi\"", " x", "two\nlines", "", "plain"] =
    utf8 "\"a,b\",\"say \"\"hi\"\"\",\" x\",\"two\nlines\",,plain\n" := by
  decide!

/-- A parameter `exported` other than the strings 0 and 1 binds no value. -/
theorem exportFilter_literals :
    exportFilter "0" = some 0 ∧ exportFilter "1" = some 1 ∧ exportFilter "" = none ∧
    exportFilter "true" = none ∧ exportFilter "01" = none ∧ exportFilter " 1" = none ∧
    exportFilter "2" = none := by
  decide

/-! ## The claims -/

/-- Claim C2: for a POST whose body decodes, `handleSubmit` answers 400 with the
message that the three fields are required exactly when one of them is empty;
then, and also when the body does not decode (400, invalid JSON body), no
statement is sent to the database and the table is unchanged. -/
theorem submit_validation (db : Store) (env : Env) (r : Request) (hm : r.method = "POST") :
    (∀ inp, r.body = some inp →
      (((handleSubmit db env r).w.status = some 400 ∧
          (env.room = none → (handleSubmit db env r).w.body =
            utf8 ("first_name, last_name, and email are required" ++ "\n"))) ↔
        (inp.FirstName = "" ∨ inp.LastName = "" ∨ inp.Email = "")) ∧
      ((inp.FirstName = "" ∨ inp.LastName = "" ∨ inp.Email = "") →
        (handleSubmit db env r).calls = [] ∧ (handleSubmit db env r).db = db)) ∧
    (r.body = none →
      (handleSubmit db env r).w.status = some 400 ∧
      (env.room = none →
        (handleSubmit db env r).w.body = utf8 ("invalid JSON body" ++ "\n")) ∧
      (handleSubmit db env r).calls = [] ∧ (handleSubmit db env r).db = db) := by
  refine ⟨fun inp hb => ⟨⟨fun h => ?_, fun he => ?_⟩, fun he => ?_⟩, fun hb => ?_⟩
  · by_contra he
    cases hi : db.insert env inp.FirstName inp.LastName inp.Email with
    | error e =>
      rw [handleSubmit_insert_failed db env r inp e hm hb he hi] at h
      rw [httpError_status _ _ _ (new_status env)] at h
      simp at h
    | ok res =>
      obtain ⟨db1, id⟩ := res
      rw [handleSubmit_created db env r inp db1 id hm hb he hi] at h
      simp only [Write_status, WriteHeader_status] at h
      simp [ResponseWriter.Set, ResponseWriter.new] at h
  · rw [handleSubmit_missing db env r inp hm hb he]
    exact ⟨httpError_status _ _ _ (new_status env),
      fun hr => by rw [httpError_body _ _ _ hr]; rfl⟩
  · rw [handleSubmit_missing db env r inp hm hb he]
    exact ⟨rfl, rfl⟩
  · rw [handleSubmit_bad_body db env r hm hb]
    exact ⟨httpError_status _ _ _ (new_status env),
      fun hr => by rw [httpError_body _ _ _ hr]; rfl, rfl, rfl⟩

theorem submit_validation_witness :
    (handleSubmit Store.empty quietEnv noEmailRequest).w.status = some 400 ∧
    (handleSubmit Store.empty quietEnv noEmailRequest).db = Store.empty :=
  ⟨(((submit_validation Store.empty quietEnv noEmailRequest rfl).1 _ rfl).1.mpr
      (Or.inr (Or.inr rfl))).1,
   (((submit_validation Store.empty quietEnv noEmailRequest rfl).1 _ rfl).2
      (Or.inr (Or.inr rfl))).2⟩

/-- Claim C3: a GET on `/export` is answered 401 with the challenge header,
without any statement sent to the database and without any CSV record,
exactly when a password is configured and the `password` parameter is absent,
empty or different from it; without a configured password every GET reaches
the select. -/
theorem export_gate (exportPassword : String) (db : Store) (env : Env) (r : Request)
    (hm : r.method = "GET") :
    (((handleExport exportPassword db env r).w.status = some 401 ∧
        ("WWW-Authenticate", "Basic realm=\"Export Protected\"") ∈
          (handleExport exportPassword db env r).w.sent ∧
        (handleExport exportPassword db env r).calls = [] ∧
        (handleExport exportPassword db env r).records = []) ↔
      (exportPassword ≠ "" ∧ (Values.Get r.query "password" = "" ∨
        Values.Get r.query "password" ≠ exportPassword))) ∧
    ((exportPassword ≠ "" ∧ (Values.Get r.query "password" = "" ∨
        Values.Get r.query "password" ≠ exportPassword)) →
      (handleExport exportPassword db env r).db = db ∧
      (env.room = none →
        (handleExport exportPassword db env r).w.body = utf8 ("Unauthorized" ++ "\n"))) ∧
    ((∀ p ∈ r.query, p.1 ≠ "password") → Values.Get r.query "password" = "") ∧
    (exportPassword = "" →
      (handleExport exportPassword db env r).calls =
        [.query (exportFilter (Values.Get r.query "exported"))]) := by
  refine ⟨⟨fun h => ?_, fun hd => ?_⟩, fun hd => ?_, fun habs => ?_, fun hp => ?_⟩
  · by_contra hd
    have := handleExport_calls exportPassword db env r hm hd
    rw [h.2.2.1] at this
    simp at this
  · rw [handleExport_denied _ _ _ _ hm hd]
    refine ⟨httpError_status _ _ _ rfl, ?_, rfl, rfl⟩
    exact httpError_sent _ _ _ _ _ rfl (by decide) (by decide) (by decide)
      (by simp [ResponseWriter.Set, ResponseWriter.new])
  · rw [handleExport_denied _ _ _ _ hm hd]
    exact ⟨rfl, fun hr => by rw [httpError_body _ _ _ hr]; rfl⟩
  · unfold Values.Get
    have : r.query.find? (fun p => decide (p.1 = "password")) = none := by
      rw [List.find?_eq_none]
      intro p hp
      simpa using habs p hp
    rw [this]
  · exact handleExport_calls exportPassword db env r hm (fun hd => hd.1 hp)

theorem export_gate_witness :
    (handleExport "secret" oneRow quietEnv guessRequest).w.status = some 401 ∧
    (handleExport "secret" oneRow quietEnv guessRequest).records = [] :=
  ⟨((export_gate "secret" oneRow quietEnv guessRequest rfl).1.mpr
      ⟨by decide, Or.inr (by decide)⟩).1,
   ((export_gate "secret" oneRow quietEnv guessRequest rfl).1.mpr
      ⟨by decide, Or.inr (by decide)⟩).2.2.2⟩

/-- Claim C6: a POST with three filled fields whose insert succeeds is answered
201 with the JSON encoding of the map holding the rowid of the new row, the
three submitted values and exported 0; the new row of the table carries the
same rowid and values. -/
theorem submit_responds_with_record (db db1 : Store) (env : Env) (r : Request)
    (inp : submissionInput) (id : Int) (hm : r.method = "POST") (hb : r.body = some inp)
    (hne : inp.FirstName ≠ "" ∧ inp.LastName ≠ "" ∧ inp.Email ≠ "")
    (hi : db.insert env inp.FirstName inp.LastName inp.Email = .ok (db1, id)) :
    (handleSubmit db env r).w.status = some 201 ∧
    ("Content-Type", "application/json") ∈ (handleSubmit db env r).w.sent ∧
    (env.room = none →
      (handleSubmit db env r).w.body =
        env.jsonEncode [("id", .int id), ("first_name", .str inp.FirstName),
          ("last_name", .str inp.LastName), ("email", .str inp.Email),
          ("exported", .int 0)] ++ [10]) ∧
    (handleSubmit db env r).db = db1 ∧
    db1.rows = db.rows ++ [⟨id, inp.FirstName, inp.LastName, inp.Email, 0, env.now⟩] ∧
    (handleSubmit db env r).log = [] := by
  have he : ¬(inp.FirstName = "" ∨ inp.LastName = "" ∨ inp.Email = "") := by
    rintro (h | h | h)
    · exact hne.1 h
    · exact hne.2.1 h
    · exact hne.2.2 h
  rw [handleSubmit_created db env r inp db1 id hm hb he hi]
  refine ⟨?_, ?_, fun hr => ?_, rfl, (insert_ok hi).2.1, rfl⟩
  · simp only [Write_status, WriteHeader_status]
    rfl
  · rw [Write_sent _ _ (by rw [WriteHeader_status]; simp)]
    simp [ResponseWriter.WriteHeader, ResponseWriter.Set, ResponseWriter.new]
  · have hb1 := Write_body
      (((ResponseWriter.new env).Set "Content-Type" "application/json").WriteHeader 201)
      (env.jsonEncode (submitResp id inp) ++ [10])
    have hr1 := Write_room_none
      (((ResponseWriter.new env).Set "Content-Type" "application/json").WriteHeader 201)
      (env.jsonEncode (submitResp id inp) ++ [10])
      (by rw [WriteHeader_room]; exact hr)
    rw [hb1.1, hb1.2.2.1 hr1.1, List.take_length, WriteHeader_body]
    rfl

theorem submit_responds_with_record_witness :
    (handleSubmit Store.empty quietEnv adaRequest).w.status = some 201 ∧
    (handleSubmit Store.empty quietEnv adaRequest).w.body =
      quietEnv.jsonEncode [("id", .int 1), ("first_name", .str "Ada"),
        ("last_name", .str "Lovelace"), ("email", .str "ada@example.com"),
        ("exported", .int 0)] ++ [10] ∧
    (handleSubmit Store.empty quietEnv adaRequest).db = oneRow :=
  ⟨(submit_responds_with_record Store.empty oneRow quietEnv adaRequest adaInput 1 rfl rfl
      (by decide) rfl).1,
   (submit_responds_with_record Store.empty oneRow quietEnv adaRequest adaInput 1 rfl rfl
      (by decide) rfl).2.2.1 rfl,
   (submit_responds_with_record Store.empty oneRow quietEnv adaRequest adaInput 1 rfl rfl
      (by decide) rfl).2.2.2.1⟩

/-- Claim C9: starting from the empty table, after every sequence of requests
every row has a non-empty first name, last name and email and exported 0; each
of the three handlers keeps this invariant, whatever the outcome. -/
theorem store_invariant (exportPassword : String) (reqs : List (Request × Env)) :
    StoreInv (run exportPassword Store.empty reqs) ∧
    (∀ db env r, StoreInv db →
      StoreInv (handleSubmit db env r).db ∧
      StoreInv (handleExport exportPassword db env r).db ∧
      StoreInv (handleRoot db env r).db) := by
  refine ⟨run_inv exportPassword reqs Store.empty (fun row h => by simp [Store.empty] at h),
    fun db env r h => ⟨handleSubmit_inv db env r h, ?_, h⟩⟩
  rw [handleExport_db]
  exact h

theorem store_invariant_witness :
    StoreInv (run "secret" Store.empty
      [(adaRequest, quietEnv), (noEmailRequest, quietEnv), (guessRequest, quietEnv)]) :=
  (store_invariant "secret"
    [(adaRequest, quietEnv), (noEmailRequest, quietEnv), (guessRequest, quietEnv)]).1

/-- Claim C10: a call of `handleSubmit` answered 201 appends exactly one row and
leaves the rows that were there as they were; every other call of
`handleSubmit`, every call of `handleExport` and every call of the root
handler leaves the table as it was. -/
theorem store_frame (exportPassword : String) (db : Store) (env : Env) (r : Request) :
    ((handleSubmit db env r).w.status = some 201 →
      ∃ row, (handleSubmit db env r).db.rows = db.rows ++ [row]) ∧
    ((handleSubmit db env r).w.status ≠ some 201 → (handleSubmit db env r).db = db) ∧
    (handleSubmit db env r).w.status ∈ [some 201, some 400, some 405, some 500] ∧
    (handleExport exportPassword db env r).db = db ∧
    (handleRoot db env r).db = db := by
  refine ⟨fun h => ?_, fun h => ?_, ?_, handleExport_db _ _ _ _, rfl⟩
  · rcases handleSubmit_db db env r with h1 | ⟨inp, id, _, _, _, hrows⟩
    · rcases handleSubmit_cases db env r with ⟨_, h2⟩ | ⟨_, _, h2⟩ | ⟨_, _, _, _, h2⟩ |
          ⟨_, _, _, _, _, _, h2⟩ | ⟨inp, db1, id, _, _, _, hi, h2⟩
      · rw [h2, httpError_status _ _ _ (new_status env)] at h; simp at h
      · rw [h2, httpError_status _ _ _ (new_status env)] at h; simp at h
      · rw [h2, httpError_status _ _ _ (new_status env)] at h; simp at h
      · rw [h2, httpError_status _ _ _ (new_status env)] at h; simp at h
      · exact ⟨_, by rw [h2]; exact (insert_ok hi).2.1⟩
    · exact ⟨_, hrows⟩
  · rcases handleSubmit_db db env r with h1 | ⟨_, _, _, _, h1, _⟩
    · exact h1
    · exact absurd h1 h
  · rcases handleSubmit_cases db env r with ⟨_, h2⟩ | ⟨_, _, h2⟩ | ⟨_, _, _, _, h2⟩ |
        ⟨_, _, _, _, _, _, h2⟩ | ⟨inp, db1, id, _, _, _, hi, h2⟩
    · rw [h2, httpError_status _ _ _ (new_status env)]; simp
    · rw [h2, httpError_status _ _ _ (new_status env)]; simp
    · rw [h2, httpError_status _ _ _ (new_status env)]; simp
    · rw [h2, httpError_status _ _ _ (new_status env)]; simp
    · rw [h2]
      simp only [Write_status, WriteHeader_status]
      simp [ResponseWriter.Set, ResponseWriter.new]

theorem store_frame_witness :
    (∃ row, (handleSubmit Store.empty quietEnv adaRequest).db.rows =
      Store.empty.rows ++ [row]) ∧
    (handleSubmit oneRow quietEnv noEmailRequest).db = oneRow :=
  ⟨(store_frame "" Store.empty quietEnv adaRequest).1 (by decide),
   (store_frame "" oneRow quietEnv noEmailRequest).2.1 (by decide)⟩

/-- Claim C7 (as stated, refuted): in an export of a table with one row whose
scan fails, the header has been handed to the CSV writer, and yet the handler
answers with status 500 and writes the message failed to read data. -/
theorem scan_failure_answers_500 :
    (handleExport "" oneRow scanFailsEnv exportRequest).records = [csvHeader] ∧
    (handleExport "" oneRow scanFailsEnv exportRequest).w.status = some 500 ∧
    (handleExport "" oneRow scanFailsEnv exportRequest).w.body =
      utf8 "failed to read data\n" ∧
    (handleExport "" oneRow scanFailsEnv exportRequest).log = ["scan error: boom"] := by
  decide!

/-- Claim C7 (amended): a failed select is answered 500 with the message failed
to query data. As long as no scan of a delivered row fails, a failed CSV write
changes neither the status (200) nor adds anything but CSV bytes to the body:
it is only logged, and an export that logs nothing has written the whole
document of the rows that `rows.Next()` delivered. When the scan of a row
fails, either a CSV write has failed before and the handler has stopped there,
or the handler logs the scan error and calls `http.Error` with the message
failed to read data and code 500 on the response, which until then holds
nothing but CSV bytes already passed on; this gives status 500 and that
message as body when the CSV output so far still sits in the buffer. -/
theorem export_failures (exportPassword : String) (db : Store) (env : Env) (r : Request)
    (hm : r.method = "GET") (ha : Authorised exportPassword r) :
    (∀ e, env.queryErr = some e →
      (handleExport exportPassword db env r).w.status = some 500 ∧
      (handleExport exportPassword db env r).records = [] ∧
      (handleExport exportPassword db env r).log = ["select error: " ++ e] ∧
      (env.room = none →
        (handleExport exportPassword db env r).w.body =
          utf8 ("failed to query data" ++ "\n"))) ∧
    (env.queryErr = none → DeliveredScansOk env (selected db r) →
      (handleExport exportPassword db env r).w.status = some 200 ∧
      (handleExport exportPassword db env r).w.body <+:
        csvText (csvHeader :: (selected db r).map record) ∧
      (∀ l ∈ (handleExport exportPassword db env r).log, IsCsvErrorLine l) ∧
      ((handleExport exportPassword db env r).log = [] →
        (handleExport exportPassword db env r).w.body =
          csvText (csvHeader :: (delivered env (selected db r)).map record))) ∧
    (∀ e k, env.queryErr = none → FirstScanFailure env (selected db r) k e →
      (((handleExport exportPassword db env r).w.status = some 200 ∧
          (handleExport exportPassword db env r).w.body <+:
            csvText (csvHeader :: ((selected db r).take k).map record) ∧
          ∃ e1, (handleExport exportPassword db env r).log = ["csv write error: " ++ e1]) ∨
        ((handleExport exportPassword db env r).log = ["scan error: " ++ e] ∧
          ∃ w0, (handleExport exportPassword db env r).w =
              httpError w0 "failed to read data" 500 ∧
            w0.body <+: csvText (csvHeader :: ((selected db r).take k).map record) ∧
            (w0.status = none ∨ w0.status = some 200))) ∧
      (env.room = none →
        (handleExport exportPassword db env r).log = ["scan error: " ++ e]) ∧
      ((csvText (csvHeader :: ((selected db r).take k).map record)).length ≤ defaultBufSize →
        (handleExport exportPassword db env r).w.status = some 500 ∧
        (handleExport exportPassword db env r).log = ["scan error: " ++ e] ∧
        (env.room = none →
          (handleExport exportPassword db env r).w.body =
            utf8 ("failed to read data" ++ "\n")))) := by
  refine ⟨fun e hq => handleExport_query_failed_response _ _ _ _ e hm ha hq,
    fun hq hs => ?_, fun e k hq hf => ⟨?_, fun hr => ?_, fun hfit => ?_⟩⟩
  · have h := handleExport_stream exportPassword db env r hm ha hq hs
    exact ⟨h.1, h.2.1, h.2.2.1, h.2.2.2.1⟩
  · rcases handleExport_scan exportPassword db env r e k hm ha hq hf with
      ⟨h1, h2, h3, _⟩ | ⟨b0, w0, hg, _, _, heq⟩
    · exact Or.inl ⟨h1, h2, h3⟩
    · right
      rw [heq]
      exact ⟨rfl, w0, rfl, hg.body_pre, hg.status⟩
  · rcases handleExport_scan exportPassword db env r e k hm ha hq hf with
      ⟨_, _, _, h4⟩ | ⟨b0, w0, _, _, _, heq⟩
    · exact absurd hr h4
    · rw [heq]
  · exact handleExport_scan_small_response _ _ _ _ e k hm ha hq hf.1.1 hf.2.1 hf.2.2
      hf.1.2 hfit

theorem export_failures_witness :
    (handleExport "" oneRow brokenEnv exportRequest).w.status = some 200 ∧
    (handleExport "" oneRow scanFailsEnv exportRequest).w.status = some 500 ∧
    (handleExport "" twoRows lateScanEnv exportRequest).log = ["scan error: boom"] :=
  ⟨((export_failures "" oneRow brokenEnv exportRequest rfl (Or.inl rfl)).2.1 rfl
      (fun _ _ => rfl)).1,
   (((export_failures "" oneRow scanFailsEnv exportRequest rfl (Or.inl rfl)).2.2 "boom" 0 rfl
      ⟨⟨by decide, fun _ _ h => Option.noConfusion h⟩,
        fun j hj => absurd hj (Nat.not_lt_zero j), rfl⟩).2.2 (by decide!)).1,
   ((export_failures "" twoRows lateScanEnv exportRequest rfl (Or.inl rfl)).2.2 "boom" 1 rfl
      ⟨⟨by decide, fun _ _ h => Option.noConfusion h⟩,
        fun j hj => by
          have : j = 0 := by omega
          subst this
          rfl, rfl⟩).2.1 rfl⟩

/-- Claim C5 (as stated, refuted): the export of a table with one row passes the
method and password checks, its select succeeds, the scan of the row fails,
and the body is the error message, which does not begin with the header
line. -/
theorem header_lost_when_scan_fails :
    exportRequest.method = "GET" ∧ Authorised "" exportRequest ∧
    scanFailsEnv.queryErr = none ∧
    ¬(csvLine csvHeader <+: (handleExport "" oneRow scanFailsEnv exportRequest).w.body) := by
  decide!

/-- Claim C5 (amended): when the export passes the method and password checks,
the select succeeds and no scan fails while the header is still in the buffer
of the CSV writer, the body is a leading part of the CSV document of the
selected rows, which begins with the header line
id,first_name,last_name,email,exported,created_at, followed at most by a
leading part of the message of a failed scan; so the body begins with the
header line or, when shorter, is a leading part of it, and it begins with the
header line on every connection that accepts every write, whatever the number
of rows and the filter. -/
theorem export_header_first (exportPassword : String) (db : Store) (env : Env) (r : Request)
    (hm : r.method = "GET") (ha : Authorised exportPassword r)
    (hq : env.queryErr = none) (hbuf : ¬ScanFailsBuffered env (selected db r)) :
    csvLine csvHeader = utf8 "id,first_name,last_name,email,exported,created_at\n" ∧
    (∃ sent err, (handleExport exportPassword db env r).w.body = sent ++ err ∧
      sent <+: csvText (csvHeader :: (selected db r).map record) ∧
      err <+: utf8 ("failed to read data" ++ "\n") ∧
      (DeliveredScansOk env (selected db r) → err = [])) ∧
    (csvLine csvHeader <+: (handleExport exportPassword db env r).w.body ∨
      (handleExport exportPassword db env r).w.body <+: csvLine csvHeader) ∧
    (env.room = none →
      csvLine csvHeader <+: (handleExport exportPassword db env r).w.body) := by
  have hH : ∀ recs, csvLine csvHeader <+: csvText (csvHeader :: recs) := fun recs => by
    rw [csvText_cons]
    exact List.prefix_append _ _
  refine ⟨by decide!, ?_⟩
  by_cases hs : DeliveredScansOk env (selected db r)
  · have h := handleExport_stream exportPassword db env r hm ha hq hs
    refine ⟨⟨_, [], (List.append_nil _).symm, h.2.1, List.nil_prefix, fun _ => rfl⟩,
      List.prefix_or_prefix_of_prefix (hH _) h.2.1, fun hr => ?_⟩
    obtain ⟨hb, _, tl, htl, _⟩ := h.2.2.2.2 hr
    rw [hb, htl]
    exact hH tl
  · obtain ⟨k, e, hf⟩ := first_failure env _ hs
    have hbig : defaultBufSize <
        (csvText (csvHeader :: ((selected db r).take k).map record)).length := by
      by_contra hle
      exact hbuf ⟨k, e, hf, Nat.le_of_not_lt hle⟩
    rcases handleExport_scan exportPassword db env r e k hm ha hq hf with
      ⟨_, h2, _, h4⟩ | ⟨b0, w0, hg, hw, he, heq⟩
    · exact ⟨⟨_, [], (List.append_nil _).symm, h2.trans (csvText_take k _), List.nil_prefix,
        fun _ => rfl⟩, List.prefix_or_prefix_of_prefix (hH _) h2, fun hr => absurd hr h4⟩
    · have hl := reached_late hg hw he (hH _) hbig
      obtain ⟨t, ht, hbody⟩ := httpError_body_any w0 "failed to read data" 500
      have hpre : csvLine csvHeader <+: (handleExport exportPassword db env r).w.body := by
        rw [heq]
        simp only []
        rw [hbody]
        exact hl.2.trans (List.prefix_append _ _)
      refine ⟨⟨w0.body, t, ?_, hg.body_pre.trans (csvText_take k _), ht,
        fun h0 => absurd h0 hs⟩, Or.inl hpre, fun _ => hpre⟩
      rw [heq]
      exact hbody

theorem export_header_first_witness :
    csvLine csvHeader <+: (handleExport "" Store.empty quietEnv exportRequest).w.body ∧
    csvLine csvHeader <+: (handleExport "" twoRows lateScanEnv exportRequest).w.body :=
  ⟨(export_header_first "" Store.empty quietEnv exportRequest rfl (Or.inl rfl) rfl
      (fun h => by
        obtain ⟨k, e, hf, _⟩ := h
        exact Option.noConfusion hf.2.2)).2.2.2 rfl,
   (export_header_first "" twoRows lateScanEnv exportRequest rfl (Or.inl rfl) rfl
      (fun h => by
        obtain ⟨k, e, hf, hfit⟩ := h
        have hk : k = 1 := by
          by_contra hne
          have h2 := hf.2.2
          simp [lateScanEnv, hne] at h2
        subst hk
        exact absurd hfit (by decide!))).2.2.2 rfl⟩

/-- Claim C4 (as stated, refuted): an authorised export without any store
failure, of a table whose only row is longer than the buffer of the CSV
writer, on a connection that accepts no byte: the handler stops at the first
failed CSV write, so the data records written are not the selected rows. -/
theorem export_cut_short_on_broken_connection :
    exportRequest.method = "GET" ∧ Authorised "" exportRequest ∧ NoStoreFailure brokenEnv ∧
    (handleExport "" bigStore brokenEnv exportRequest).records = [csvHeader] ∧
    (handleExport "" bigStore brokenEnv exportRequest).records.tail ≠
      (selected bigStore exportRequest).map record ∧
    (handleExport "" bigStore brokenEnv exportRequest).log =
      ["csv write error: broken pipe"] :=
  ⟨rfl, Or.inl rfl, ⟨rfl, rfl, fun _ => rfl⟩, by decide!, by decide!, by decide!⟩

/-- Claim C4 (amended): for every table and every authorised GET on `/export`
with no store failure, on a connection that accepts every write, the records
written are the header followed, one per row and in the order of the select,
by the selected rows, each rendered as decimal id, first name, last name,
email, decimal exported, created_at, and the body is their CSV document; the
parameter `exported` selects the rows with exported 0 when it is the string
0, those with exported 1 when it is the string 1, and all rows otherwise. -/
theorem export_records (exportPassword : String) (db : Store) (env : Env) (r : Request)
    (hm : r.method = "GET") (ha : Authorised exportPassword r) (hs : NoStoreFailure env)
    (hroom : env.room = none) :
    (handleExport exportPassword db env r).records =
      csvHeader :: (selected db r).map record ∧
    (handleExport exportPassword db env r).w.body =
      csvText (csvHeader :: (selected db r).map record) ∧
    (handleExport exportPassword db env r).w.status = some 200 ∧
    (∀ row, record row = [Itoa row.id, row.first_name, row.last_name, row.email,
      Itoa row.exported, row.created_at]) ∧
    (Values.Get r.query "exported" = "0" →
      selected db r = db.rows.filter (fun x => x.exported = 0)) ∧
    (Values.Get r.query "exported" = "1" →
      selected db r = db.rows.filter (fun x => x.exported = 1)) ∧
    (Values.Get r.query "exported" ≠ "0" → Values.Get r.query "exported" ≠ "1" →
      selected db r = db.rows) := by
  have h := handleExport_stream exportPassword db env r hm ha hs.1 (noScan_delivered hs.2.2 _)
  obtain ⟨hb, _, tl, htl, hall⟩ := h.2.2.2.2 hroom
  have hrec : (handleExport exportPassword db env r).records =
      csvHeader :: (selected db r).map record := by rw [htl, hall hs.2.1]
  refine ⟨hrec, by rw [hb, hrec], h.1, fun _ => rfl, fun h0 => ?_, fun h1 => ?_,
    fun h0 h1 => ?_⟩
  · simp [selected, exportFilter, Store.select, h0]
  · simp [selected, exportFilter, Store.select, h1]
  · simp [selected, exportFilter, Store.select, h0, h1]

theorem export_records_witness :
    (handleExport "" oneRow quietEnv exportRequest).records =
      [csvHeader, ["1", "Ada", "Lovelace", "ada@example.com", "0", "2024-01-01 00:00:00"]] :=
  (export_records "" oneRow quietEnv exportRequest rfl (Or.inl rfl)
    ⟨rfl, rfl, fun _ => rfl⟩ rfl).1

/-- Claim C1 (as stated, refuted): a valid submission is stored with status 201
in a table whose first row is longer than the buffer of the CSV writer; the
following authorised, unfiltered export without any store failure runs on a
connection that accepts no byte, stops at the first failed CSV write and
writes no record for the submission. -/
theorem roundtrip_lost_on_broken_connection :
    (adaInput.FirstName ≠ "" ∧ adaInput.LastName ≠ "" ∧ adaInput.Email ≠ "") ∧
    (handleSubmit bigStore quietEnv adaRequest).w.status = some 201 ∧
    (handleSubmit bigStore quietEnv adaRequest).db.rows =
      bigStore.rows ++ [{ adaRow with id := 2 }] ∧
    exportRequest.method = "GET" ∧ Authorised "" exportRequest ∧
    exportFilter (Values.Get exportRequest.query "exported") = none ∧
    NoStoreFailure brokenEnv ∧
    ["2", "Ada", "Lovelace", "ada@example.com", "0", "2024-01-01 00:00:00"] ∉
      (handleExport "" (handleSubmit bigStore quietEnv adaRequest).db brokenEnv
        exportRequest).records :=
  ⟨by decide, by decide!, by decide!, rfl, Or.inl rfl, by decide, ⟨rfl, rfl, fun _ => rfl⟩,
    by decide!⟩

/-- Claim C1 (amended): for every table and every submission with three filled
fields whose insert succeeds, `handleSubmit` answers 201, and an authorised
export without `exported` filter and without store failure that follows, on a
connection that accepts every write, writes a data record holding the decimal
rowid returned by the insert, the submitted first name, last name and email,
the string 0 for exported and the timestamp of the insert; the body is the CSV
document of the records written. -/
theorem submit_then_export (exportPassword : String) (db db1 : Store) (env1 env2 : Env)
    (r1 r2 : Request) (inp : submissionInput) (id : Int)
    (hm1 : r1.method = "POST") (hb : r1.body = some inp)
    (hne : inp.FirstName ≠ "" ∧ inp.LastName ≠ "" ∧ inp.Email ≠ "")
    (hi : db.insert env1 inp.FirstName inp.LastName inp.Email = .ok (db1, id))
    (hm2 : r2.method = "GET") (ha : Authorised exportPassword r2)
    (hf : exportFilter (Values.Get r2.query "exported") = none)
    (hs : NoStoreFailure env2) (hroom : env2.room = none) :
    (handleSubmit db env1 r1).w.status = some 201 ∧
    (handleSubmit db env1 r1).db = db1 ∧
    [Itoa id, inp.FirstName, inp.LastName, inp.Email, "0", env1.now] ∈
      (handleExport exportPassword (handleSubmit db env1 r1).db env2 r2).records.tail ∧
    (handleExport exportPassword (handleSubmit db env1 r1).db env2 r2).w.body =
      csvText (handleExport exportPassword (handleSubmit db env1 r1).db env2 r2).records := by
  have he : ¬(inp.FirstName = "" ∨ inp.LastName = "" ∨ inp.Email = "") := by
    rintro (h | h | h)
    · exact hne.1 h
    · exact hne.2.1 h
    · exact hne.2.2 h
  have hdb : (handleSubmit db env1 r1).db = db1 := by
    rw [handleSubmit_created db env1 r1 inp db1 id hm1 hb he hi]
  have hst : (handleSubmit db env1 r1).w.status = some 201 := by
    rw [handleSubmit_created db env1 r1 inp db1 id hm1 hb he hi]
    simp only [Write_status, WriteHeader_status]
    rfl
  rw [hdb]
  have h := handleExport_stream exportPassword db1 env2 r2 hm2 ha hs.1 (noScan_delivered hs.2.2 _)
  obtain ⟨hbody, _, tl, htl, hall⟩ := h.2.2.2.2 hroom
  refine ⟨hst, rfl, ?_, hbody⟩
  rw [htl, hall hs.2.1, List.tail_cons]
  have hsel : selected db1 r2 = db1.rows := by
    unfold selected
    rw [hf]
    rfl
  rw [hsel, (insert_ok hi).2.1, List.map_append]
  exact List.mem_append_right _ (List.mem_singleton.mpr rfl)

theorem submit_then_export_witness :
    [Itoa 1, "Ada", "Lovelace", "ada@example.com", "0", "2024-01-01 00:00:00"] ∈
      (handleExport "" (handleSubmit Store.empty quietEnv adaRequest).db quietEnv
        exportRequest).records.tail :=
  (submit_then_export "" Store.empty oneRow quietEnv quietEnv adaRequest exportRequest
    adaInput 1 rfl rfl (by decide) rfl rfl (Or.inl rfl) (by decide)
    ⟨rfl, rfl, fun _ => rfl⟩ rfl).2.2.1

/-- Claim C8 (the code at the failing input): in an export of two rows, the
first longer than the buffer of the CSV writer, the scan of the second row
fails after a full buffer of CSV has been passed on. The handler calls
`http.Error` with code 500, but the status of the response is 200, and the
generic message follows the CSV bytes sent so far. -/
theorem late_scan_failure_keeps_200 :
    lateScanEnv.scanErr 1 = some "boom" ∧
    (handleExport "" twoRows lateScanEnv exportRequest).w.status = some 200 ∧
    (handleExport "" twoRows lateScanEnv exportRequest).w.body.drop defaultBufSize =
      utf8 "failed to read data\n" ∧
    (handleExport "" twoRows lateScanEnv exportRequest).log = ["scan error: boom"] :=
  ⟨rfl, by decide!, by decide!, by decide!⟩

end Virtudocks
